import Mathlib

/-!
Shallow embedding of the coordination core of the Synapse charm
(`src/charm.py`): unit-identity parsing, the instance-map topology
builder, the main-unit designation logic, signing-key secret
management, and the reconcile loop.

Strings are modelled with Lean `String` (a wrapper around `List Char`);
Python ordered dicts are modelled as association lists with
update-in-place-or-append insertion; Python exceptions that abort a
reconciliation are modelled with `Except Unit`.
-/

namespace SynapseCharm

/-- Python `name.replace("/", "-")` for the single-character pattern used
by the charm: character-wise substitution. -/
def slashToDash (s : String) : String :=
  String.mk (s.data.map (fun c => if c = '/' then '-' else c))

/-- Python `s.rstrip()`: drop trailing whitespace characters. -/
def rstrip (s : String) : String :=
  String.mk ((s.data.reverse.dropWhile Char.isWhitespace).reverse)

/-- Suffix of `l` strictly after the last occurrence of `c`
(`l` itself when `c` does not occur): this is `unit_part[index+1:]`
where `index = unit_part.rfind(c)` (with `rfind` returning -1 when
absent, so `begin = 0`). -/
def afterLast (c : Char) (l : List Char) : List Char :=
  (l.reverse.takeWhile (fun x => x ≠ c)).reverse

/-- Model of `SynapseCharm.get_unit_number` (charm.py lines 126-144):
`unit_part = unit_name.split(".")[0]`; then the substring after the
last `/` if any, else after the last `-` if any, else the whole
`unit_part`.  The function is total: it never raises. -/
def getUnitNumber (unit_name : String) : String :=
  let unit_part := unit_name.data.takeWhile (fun x => x ≠ '.')
  if '/' ∈ unit_part then String.mk (afterLast '/' unit_part)
  else if '-' ∈ unit_part then String.mk (afterLast '-' unit_part)
  else String.mk unit_part

/-- Model of `re.search(r"-(\d+)", address)` over a character list: find the first
position where `-` is immediately followed by at least one digit and
return the maximal digit run. -/
def extractIdAux : List Char → Option String
  | [] => none
  | c :: rest =>
    if c = '-' ∧ rest.takeWhile Char.isDigit ≠ [] then
      some (String.mk (rest.takeWhile Char.isDigit))
    else extractIdAux rest

/-- First `-(\d+)` capture group in an address, if any. -/
def extractId (s : String) : Option String := extractIdAux s.data

/-- Canonical unit address: `f"{unit_name.replace('/', '-')}.{app_name}-endpoints"`. -/
def unitAddress (name app : String) : String :=
  slashToDash name ++ "." ++ app ++ "-endpoints"

/-- Peer-relation application data bag (`peer_relation[0].data[self.app]`):
the `main_unit_id` key and the `secret-signing-id` key. -/
structure PeerStore where
  mainUnitId : Option String
  secretSigningId : Option String
deriving DecidableEq, Repr

/-- External facts fixed for one unit process: its own name, the
application name, whether it holds leadership, the names of the other
units in the peer relation, `app.planned_units()`, and the configured
server name (used for the signing-key path). -/
structure Env where
  selfName : String
  appName : String
  leader : Bool
  peerNames : List String
  plannedUnits : Nat
  serverName : String

/-- Model of `SynapseCharm.get_main_unit`: `None` when there is no peer relation,
otherwise the optional `main_unit_id` value. -/
def getMainUnit (store : Option PeerStore) : Option String :=
  match store with
  | none => none
  | some s => s.mainUnitId

/-- Model of `SynapseCharm.get_main_unit_address`: fall back to the observer's own
name when no main unit is recorded. -/
def getMainUnitAddress (env : Env) (store : Option PeerStore) : String :=
  unitAddress ((getMainUnit store).getD env.selfName) env.appName

/-- Model of `SynapseCharm.set_main_unit`: writes `main_unit_id` in the peer
application data; a no-op when there is no peer relation. -/
def setMainUnit (unit : String) (store : Option PeerStore) : Option PeerStore :=
  match store with
  | none => none
  | some s => some { s with mainUnitId := some unit }

/-- Model of `SynapseCharm.is_main`: `self.get_main_unit() == self.unit.name`. -/
def isMain (env : Env) (store : Option PeerStore) : Bool :=
  getMainUnit store = some env.selfName

/-- The `addresses` list built in `instance_map`: the observer's own
address first, then (when the peer relation exists) one address per
peer-relation unit, in order. -/
def peerAddresses (env : Env) (store : Option PeerStore) : List String :=
  unitAddress env.selfName env.appName ::
    (match store with
     | none => []
     | some _ => env.peerNames.map (fun n => unitAddress n env.appName))

/-- Topology map: ordered association list from role name to (host, port). -/
abbrev InstanceMap := List (String × String × Nat)

/-- Python-dict assignment `m[k] = v`: update in place when the key
exists (keeping its position), else append. -/
def dictInsert (m : InstanceMap) (k : String) (v : String × Nat) : InstanceMap :=
  if m.any (fun p => p.1 = k) then
    m.map (fun p => if p.1 = k then (k, v) else p)
  else m ++ [(k, v)]

/-- The `for address in addresses` loop of `instance_map`: skip the main
address; for any other address require an extractable numeric id
(`match.group(1)` raises — modelled as `Except.error`) and insert
`worker<id> -> (address, 8034)`. -/
def workerLoop (mainAddr : String) (acc : InstanceMap) :
    List String → Except Unit InstanceMap
  | [] => .ok acc
  | a :: rest =>
    if a = mainAddr then workerLoop mainAddr acc rest
    else
      match extractId a with
      | none => .error ()
      | some n => workerLoop mainAddr (dictInsert acc ("worker" ++ n) (a, 8034)) rest

/-- Model of `SynapseCharm.instance_map` (charm.py lines 146-187): `none` when
`peer_units_total() == 1`; otherwise the dict seeded with `main` and
`federationsender1` at the main address, followed by the worker loop.
An address with no extractable id (other than the main address, which
is skipped first) raises, modelled as `Except.error`. -/
def buildInstanceMap (env : Env) (store : Option PeerStore) :
    Except Unit (Option InstanceMap) :=
  if env.plannedUnits = 1 then .ok none
  else
    let mainAddr := getMainUnitAddress env store
    let base : InstanceMap :=
      [("main", (mainAddr, 8035)), ("federationsender1", (mainAddr, 8034))]
    match workerLoop mainAddr base (peerAddresses env store) with
    | .error e => .error e
    | .ok m => .ok (some m)

/-- Unit status values used by the charm: `unknown` stands for any
status other than the three the core sets (e.g. the initial status). -/
inductive Status
  | unknown
  | maintenance (msg : String)
  | blocked (msg : String)
  | active
deriving DecidableEq, Repr

/-- Workload container state visible to the charm: control-plane
reachability, files, and the running state of the two services. -/
structure Container where
  canConnect : Bool
  files : List (String × String)
  synapseRunning : Bool
  nginxRunning : Bool
  nginxMainAddr : Option String
deriving DecidableEq, Repr

/-- Model of `container.push(path, content, ...)`. -/
def pushFile (path content : String) (c : Container) : Container :=
  { c with files := (c.files.filter (fun p => p.1 ≠ path)) ++ [(path, content)] }

/-- Model of `container.pull(path)` as an optional read. -/
def readFile (path : String) (c : Container) : Option String :=
  (c.files.find? (fun p => p.1 = path)).map (·.2)

/-- Whole-system state threaded through a reconciliation: the peer
relation data (None when no peer relation exists), the model's secrets
(id, content) in creation order, a fresh-id counter, the workload
container, the configuration last applied to the workload, the unit
status, and the matrix-auth integration data last published. -/
structure SysState (Config : Type) where
  store : Option PeerStore
  secrets : List (String × String)
  nextSecretId : Nat
  container : Container
  appliedConfig : Option Config
  status : Status
  matrixAuth : Option (Option InstanceMap)
deriving DecidableEq, Repr

/-- Modelled from the spec: the workload control plane operations that
live outside `src/` (the `pebble` module's `reconcile` and
`restart_nginx`).  `desired` computes the full desired configuration
from the instance map, `is_main` and the unit number; `applyOutcome`
is `none` on success or the `PebbleServiceError` message; `synAfter`
and `ngxAfter` give the deterministic running state of the two
services after a successful apply / restart. -/
structure Workload (Config : Type) where
  desired : Option InstanceMap → Bool → String → Config
  applyOutcome : Config → Option String
  synAfter : Config → Bool
  ngxAfter : String → Bool

/-- The path `/data/\x7bserver_name\x7d.signing.key`. -/
def signingKeyPath (env : Env) : String :=
  "/data/" ++ env.serverName ++ ".signing.key"

/-- Secret lookup by id. -/
def lookupSecret (secrets : List (String × String)) (sid : String) : Option String :=
  (secrets.find? (fun p => p.1 = sid)).map (·.2)

/-- Fresh secret id from the counter. -/
def freshSecretId (n : Nat) : String := "secret:" ++ toString n

/-- Total (leader-path) variant of `SynapseCharm.get_signing_key`
(charm.py lines 412-435): `None` without a peer relation or reference;
on a dangling reference (secret not found) delete the reference and
return `None`.  This is the behaviour when the dangling-reference
cleanup `del` is permitted; the faithful model `getSigningKey` below
additionally raises on that `del` for a non-leader (ops forbids
non-leader writes to the application databag).  Kept as total proof
scaffolding. -/
def getSigningKeyT {Config : Type} (st : SysState Config) :
    Option String × SysState Config :=
  match st.store with
  | none => (none, st)
  | some s =>
    match s.secretSigningId with
    | none => (none, st)
    | some sid =>
      match lookupSecret st.secrets sid with
      | some content => (some content, st)
      | none => (none, { st with store := some { s with secretSigningId := none } })

/-- Total (leader-path) variant of `SynapseCharm.set_signing_key`
(charm.py lines 388-410): no-op without a peer relation; compare the
new key with `get_signing_key()` (which may delete a dangling reference
as a side effect); when equal, skip; otherwise, only a leader creates a
secret and publishes its id.  The faithful model `setSigningKey` below
propagates the non-leader error of the nested cleanup.  Kept as total
proof scaffolding. -/
def setSigningKeyT {Config : Type} (env : Env) (key : String) (st : SysState Config) :
    SysState Config :=
  match st.store with
  | none => st
  | some s =>
    let pr : Option String × PeerStore :=
      match s.secretSigningId with
      | none => (none, s)
      | some sid =>
        match lookupSecret st.secrets sid with
        | some c => (some c, s)
        | none => (none, { s with secretSigningId := none })
    if pr.1 = some key then { st with store := some pr.2 }
    else if env.leader then
      { st with
        secrets := st.secrets ++ [(freshSecretId st.nextSecretId, key)],
        nextSecretId := st.nextSecretId + 1,
        store := some { pr.2 with secretSigningId := some (freshSecretId st.nextSecretId) } }
    else { st with store := some pr.2 }

/-- Model of `SynapseCharm._set_unit_status` (charm.py lines 236-268): a Blocked
status is left untouched; otherwise report Maintenance for an
unreachable container or a non-running service, else Active. -/
def setUnitStatus {Config : Type} (st : SysState Config) : SysState Config :=
  match st.status with
  | .blocked _ => st
  | _ =>
    if st.container.canConnect = false then
      { st with status := .maintenance "Waiting for Synapse pebble" }
    else if st.container.synapseRunning = false then
      { st with status := .maintenance "Waiting for Synapse" }
    else if st.container.nginxRunning = false then
      { st with status := .maintenance "Waiting for NGINX" }
    else { st with status := .active }

/-- The main-unit bootstrap at the top of `reconcile` (charm.py lines
197-199): when no main unit is recorded and the observer is leader,
record the observer. -/
def bootstrapSt {Config : Type} (env : Env) (st : SysState Config) : SysState Config :=
  if getMainUnit st.store = none ∧ env.leader then
    { st with store := setMainUnit env.selfName st.store }
  else st

/-- Tail of `reconcile` after a successful configuration apply
(charm.py lines 227-234): leader updates the matrix-auth integration,
NGINX is restarted against the main unit address, and the final status
is recomputed. -/
def finishReconcile {Config : Type} (env : Env) (W : Workload Config)
    (im : Option InstanceMap) (st : SysState Config) : SysState Config :=
  let st := if env.leader then { st with matrixAuth := some im } else st
  let addr := getMainUnitAddress env st.store
  setUnitStatus
    { st with container :=
        { st.container with nginxRunning := W.ngxAfter addr, nginxMainAddr := some addr } }

/-- The step `self.model.unit.status = ops.MaintenanceStatus("Configuring Synapse")`. -/
def configuringSt {Config : Type} (st : SysState Config) : SysState Config :=
  { st with status := Status.maintenance "Configuring Synapse" }

/-- Push the signing key fetched from the secret (if any) into the
container (charm.py lines 209-213). -/
def pushKeySt {Config : Type} (env : Env) (g : Option String × SysState Config) :
    SysState Config :=
  match g.1 with
  | some k => { g.2 with container := pushFile (signingKeyPath env) k g.2.container }
  | none => g.2

/-- Modelled from the spec: a successful `pebble.reconcile` records the
applied configuration and leaves the Synapse service in the
deterministic state the workload model assigns to that configuration. -/
def applySt {Config : Type} (W : Workload Config) (cfg : Config) (st : SysState Config) :
    SysState Config :=
  { st with appliedConfig := some cfg,
            container := { st.container with synapseRunning := W.synAfter cfg } }

/-- Total (leader-path) variant of `SynapseCharm.reconcile` (charm.py
lines 189-234) over the system state, given the charm state's instance
map `im` (built by the caller before entry).  Returns the new state and
the configuration applied in this run (`none` when `pebble.reconcile`
did not succeed).  It uses the total signing-key variants, so it never
raises; the faithful model `reconcile` below propagates the non-leader
dangling-cleanup error, and agrees with this variant whenever it
returns (`rec_ok`).  Kept as total proof scaffolding. -/
def reconcileT {Config : Type} (env : Env) (W : Workload Config)
    (im : Option InstanceMap) (st0 : SysState Config) :
    SysState Config × Option Config :=
  let st1 := bootstrapSt env st0
  if st1.container.canConnect = false then
    ({ st1 with status := .maintenance "Waiting for Synapse pebble" }, none)
  else
    let g := getSigningKeyT (configuringSt st1)
    let st3 := pushKeySt env g
    let cfg := W.desired im (isMain env st3.store) (getUnitNumber env.selfName)
    match W.applyOutcome cfg with
    | some e => ({ st3 with status := .blocked e }, none)
    | none =>
      let st4 := applySt W cfg st3
      if isMain env st4.store ∧ g.1 = none then
        match readFile (signingKeyPath env) st4.container with
        | none => ({ st4 with status := .blocked "signing key file not found" }, some cfg)
        | some content =>
          (finishReconcile env W im (setSigningKeyT env (rstrip content) st4), some cfg)
      else (finishReconcile env W im st4, some cfg)

/-- Model of `SynapseCharm.get_signing_key` (charm.py lines 412-435):
`None` without a peer relation or reference; on a dangling reference
(secret not found) the handler executes
`del peer_relation[0].data[self.app]["secret-signing-id"]` — for a
leader this deletes the reference and the call returns `None`, but for
a non-leader ops raises `RelationDataError` on the application-databag
write, which is not caught by the surrounding
`except (ops.model.SecretNotFoundError, ValueError, TypeError)` and so
escapes the call (modelled as `.error ()`). -/
def getSigningKey {Config : Type} (env : Env) (st : SysState Config) :
    Except Unit (Option String × SysState Config) :=
  match st.store with
  | none => .ok (none, st)
  | some s =>
    match s.secretSigningId with
    | none => .ok (none, st)
    | some sid =>
      match lookupSecret st.secrets sid with
      | some content => .ok (some content, st)
      | none =>
        if env.leader then .ok (none, { st with store := some { s with secretSigningId := none } })
        else .error ()

/-- Model of `SynapseCharm.set_signing_key` (charm.py lines 388-410):
no-op without a peer relation; compare the new key with
`get_signing_key()` — whose dangling-reference cleanup raises for a
non-leader, and that error escapes `set_signing_key` too; when equal,
skip; otherwise, only a leader creates a secret and publishes its id. -/
def setSigningKey {Config : Type} (env : Env) (key : String) (st : SysState Config) :
    Except Unit (SysState Config) :=
  match st.store with
  | none => .ok st
  | some s =>
    let pr : Except Unit (Option String × PeerStore) :=
      match s.secretSigningId with
      | none => .ok (none, s)
      | some sid =>
        match lookupSecret st.secrets sid with
        | some c => .ok (some c, s)
        | none =>
          if env.leader then .ok (none, { s with secretSigningId := none })
          else .error ()
    match pr with
    | .error e => .error e
    | .ok (cur, s1) =>
      if cur = some key then .ok { st with store := some s1 }
      else if env.leader then
        .ok { st with
          secrets := st.secrets ++ [(freshSecretId st.nextSecretId, key)],
          nextSecretId := st.nextSecretId + 1,
          store := some { s1 with secretSigningId := some (freshSecretId st.nextSecretId) } }
      else .ok { st with store := some s1 }

/-- Model of `SynapseCharm.reconcile` (charm.py lines 189-234) over the
system state, given the charm state's instance map `im` (built by the
caller before entry).  Returns the new state and the configuration
applied in this run (`none` when `pebble.reconcile` did not succeed);
a `RelationDataError` raised inside `get_signing_key`/`set_signing_key`
(non-leader dangling-reference cleanup) is not caught by
`except (pebble.PebbleServiceError, FileNotFoundError)` and aborts the
run (`.error ()`). -/
def reconcile {Config : Type} (env : Env) (W : Workload Config)
    (im : Option InstanceMap) (st0 : SysState Config) :
    Except Unit (SysState Config × Option Config) :=
  let st1 := bootstrapSt env st0
  if st1.container.canConnect = false then
    .ok ({ st1 with status := .maintenance "Waiting for Synapse pebble" }, none)
  else
    match getSigningKey env (configuringSt st1) with
    | .error e => .error e
    | .ok g =>
      let st3 := pushKeySt env g
      let cfg := W.desired im (isMain env st3.store) (getUnitNumber env.selfName)
      match W.applyOutcome cfg with
      | some e => .ok ({ st3 with status := .blocked e }, none)
      | none =>
        let st4 := applySt W cfg st3
        if isMain env st4.store ∧ g.1 = none then
          match readFile (signingKeyPath env) st4.container with
          | none => .ok ({ st4 with status := .blocked "signing key file not found" }, some cfg)
          | some content =>
            match setSigningKey env (rstrip content) st4 with
            | .error e => .error e
            | .ok st5 => .ok (finishReconcile env W im st5, some cfg)
        else .ok (finishReconcile env W im st4, some cfg)

/-- One full reconciliation invocation: `build_charm_state` (whose
`instance_map` may raise, aborting the invocation with no state
change) followed by `reconcile`. -/
def invoke {Config : Type} (env : Env) (W : Workload Config) (st : SysState Config) :
    Except Unit (SysState Config × Option Config) :=
  match buildInstanceMap env st.store with
  | .error e => .error e
  | .ok im => reconcile env W im st

/-- Model of `SynapseCharm._on_leader_elected` (charm.py lines 437-462): the
charm state is built first (decorator), non-leaders return early,
a leader unconditionally records itself as main and reconciles. -/
def onLeaderElected {Config : Type} (env : Env) (W : Workload Config)
    (st : SysState Config) : Except Unit (SysState Config × Option Config) :=
  match buildInstanceMap env st.store with
  | .error e => .error e
  | .ok im =>
    if env.leader then
      reconcile env W im { st with store := setMainUnit env.selfName st.store }
    else .ok (st, none)

/-- Model of `SynapseCharm._on_relation_departed` (charm.py lines 298-319): the
charm state is built first (decorator); the departing unit itself does
nothing; when the departed unit is the recorded main and the observer
is leader, the observer records itself as main; then reconcile. -/
def onRelationDeparted {Config : Type} (env : Env) (W : Workload Config)
    (departing : String) (st : SysState Config) :
    Except Unit (SysState Config × Option Config) :=
  match buildInstanceMap env st.store with
  | .error e => .error e
  | .ok im =>
    if departing = env.selfName then .ok (st, none)
    else
      let st' :=
        if getMainUnit st.store = some departing ∧ env.leader then
          { st with store := setMainUnit env.selfName st.store }
        else st
      reconcile env W im st'

/-- The `secret-signing-id` reference currently stored in the peer data. -/
def storeRef {Config : Type} (st : SysState Config) : Option String :=
  match st.store with
  | none => none
  | some s => s.secretSigningId

/-- What `get_signing_key` returns (ignoring its dangling-reference
cleanup side effect). -/
def resolveKey {Config : Type} (st : SysState Config) : Option String :=
  match storeRef st with
  | none => none
  | some sid => lookupSecret st.secrets sid

/-- Worker role name derived from an address. -/
def workerKey (a : String) : String := "worker" ++ (extractId a).getD ""

/-- The status `_set_unit_status` computes from a (non-blocked) unit's
container checks. -/
def statusFrom (c : Container) : Status :=
  if c.canConnect = false then .maintenance "Waiting for Synapse pebble"
  else if c.synapseRunning = false then .maintenance "Waiting for Synapse"
  else if c.nginxRunning = false then .maintenance "Waiting for NGINX"
  else .active

/-- Pure recomputation of the reconcile run's observable outputs (final unit
status, configuration applied this run) from the starting state. -/
def recOut {Config : Type} (env : Env) (W : Workload Config) (im : Option InstanceMap)
    (st : SysState Config) : Status × Option Config :=
  if st.container.canConnect = false then (.maintenance "Waiting for Synapse pebble", none)
  else
    let m := isMain env (bootstrapSt env st).store
    let cfg := W.desired im m (getUnitNumber env.selfName)
    match W.applyOutcome cfg with
    | some e => (.blocked e, none)
    | none =>
      if m = true ∧ resolveKey (bootstrapSt env st) = none ∧
          readFile (signingKeyPath env) st.container = none then
        (.blocked "signing key file not found", some cfg)
      else
        (statusFrom { st.container with
            synapseRunning := W.synAfter cfg,
            nginxRunning := W.ngxAfter (getMainUnitAddress env st.store),
            nginxMainAddr := some (getMainUnitAddress env st.store) }, some cfg)

/-- Trivial workload model used to evaluate the embedding at concrete
inputs: applying any configuration succeeds and leaves both services
running. -/
def unitW : Workload Unit :=
  { desired := fun _ _ _ => (), applyOutcome := fun _ => none,
    synAfter := fun _ => true, ngxAfter := fun _ => true }

/-- A reachable container holding the given files. -/
def mkContainer (files : List (String × String)) : Container :=
  { canConnect := true, files := files, synapseRunning := false,
    nginxRunning := false, nginxMainAddr := none }

instance {ε α : Type} [DecidableEq ε] [DecidableEq α] : DecidableEq (Except ε α) :=
  fun x y =>
  match x, y with
  | .error e, .error f =>
    if h : e = f then .isTrue (congrArg Except.error h)
    else .isFalse (fun hc => h (Except.error.inj hc))
  | .ok a, .ok b =>
    if h : a = b then .isTrue (congrArg Except.ok h)
    else .isFalse (fun hc => h (Except.ok.inj hc))
  | .error _, .ok _ => .isFalse (fun hc => Except.noConfusion hc)
  | .ok _, .error _ => .isFalse (fun hc => Except.noConfusion hc)

/-- An unreachable container. -/
def downContainer : Container :=
  { canConnect := false, files := [], synapseRunning := false,
    nginxRunning := false, nginxMainAddr := none }

/-- Single-unit leader environment whose workload generated a signing
key file ending in a newline. -/
def c7Env : Env :=
  { selfName := "app/0", appName := "app", leader := true, peerNames := [],
    plannedUnits := 1, serverName := "srv" }

def c7St : SysState Unit :=
  { store := some { mainUnitId := some "app/0", secretSigningId := none },
    secrets := [], nextSecretId := 0,
    container := mkContainer [("/data/srv.signing.key", "k\n")],
    appliedConfig := none, status := Status.unknown, matrixAuth := none }

def c7Run1 : SysState Unit :=
  match invoke c7Env unitW c7St with
  | .ok p => p.1
  | .error _ => c7St

def c7Run2 : SysState Unit :=
  match invoke c7Env unitW c7Run1 with
  | .ok p => p.1
  | .error _ => c7St

/-- Environment for the departed-unit scenarios. -/
def c4Env : Env :=
  { selfName := "app/0", appName := "app", leader := true, peerNames := [],
    plannedUnits := 1, serverName := "srv" }

/-- Peer data present but no main recorded; container unreachable. -/
def c4St : SysState Unit :=
  { store := some { mainUnitId := none, secretSigningId := none },
    secrets := [], nextSecretId := 0, container := downContainer,
    appliedConfig := none, status := Status.unknown, matrixAuth := none }

def c4Run : SysState Unit :=
  match onRelationDeparted c4Env unitW "app/1" c4St with
  | .ok p => p.1
  | .error _ => c4St

/-- The recorded main is the departing unit `app/1`. -/
def c4wSt : SysState Unit :=
  { store := some { mainUnitId := some "app/1", secretSigningId := none },
    secrets := [], nextSecretId := 0, container := downContainer,
    appliedConfig := none, status := Status.unknown, matrixAuth := none }

def c4wRun : SysState Unit :=
  match onRelationDeparted c4Env unitW "app/1" c4wSt with
  | .ok p => p.1
  | .error _ => c4wSt

/-- A unit that was not main becomes leader. -/
def c5St : SysState Unit :=
  { store := some { mainUnitId := some "app/1", secretSigningId := none },
    secrets := [], nextSecretId := 0, container := downContainer,
    appliedConfig := none, status := Status.unknown, matrixAuth := none }

def c5Run1 : SysState Unit :=
  match onLeaderElected c4Env unitW c5St with
  | .ok p => p.1
  | .error _ => c5St

/-- The signing-key reference is already published and resolvable. -/
def c6St : SysState Unit :=
  { store := some { mainUnitId := some "app/0", secretSigningId := some "secret:0" },
    secrets := [("secret:0", "k")], nextSecretId := 1,
    container := mkContainer [("/data/srv.signing.key", "k")],
    appliedConfig := none, status := Status.unknown, matrixAuth := none }

def c6Run1 : SysState Unit :=
  match invoke c7Env unitW c6St with
  | .ok p => p.1
  | .error _ => c6St

def c6Run2 : SysState Unit :=
  match invoke c7Env unitW c6Run1 with
  | .ok p => p.1
  | .error _ => c6St

/-- Non-leader environment for the signing-key publication check. -/
def c10Env : Env :=
  { selfName := "app/0", appName := "app", leader := false, peerNames := [],
    plannedUnits := 1, serverName := "srv" }

def c10St : SysState Unit :=
  { store := some { mainUnitId := some "app/0", secretSigningId := none },
    secrets := [], nextSecretId := 0,
    container := mkContainer [("/data/srv.signing.key", "k")],
    appliedConfig := none, status := Status.unknown, matrixAuth := none }

def c10Run : SysState Unit :=
  match invoke c10Env unitW c10St with
  | .ok p => p.1
  | .error _ => c10St

/-- Non-leader state with a dangling published reference: `secret:9` is
recorded in the peer data but absent from the model's secrets. -/
def c10dSt : SysState Unit :=
  { store := some { mainUnitId := some "app/0", secretSigningId := some "secret:9" },
    secrets := [], nextSecretId := 0,
    container := mkContainer [("/data/srv.signing.key", "k")],
    appliedConfig := none, status := Status.unknown, matrixAuth := none }

/-- Environment whose recorded main unit name yields an address with no
extractable numeric id. -/
def c3Env : Env :=
  { selfName := "app/0", appName := "app", leader := false,
    peerNames := ["badpeer"], plannedUnits := 2, serverName := "srv" }

def c3Store : Option PeerStore :=
  some { mainUnitId := some "badpeer", secretSigningId := none }

/-- Environment with a peer whose address has no extractable numeric id
while the main address is the observer's own (extractable) address. -/
def c3wEnv : Env :=
  { selfName := "app/0", appName := "app", leader := false,
    peerNames := ["badpeer"], plannedUnits := 2, serverName := "srv" }

def c3wSt : SysState Unit :=
  { store := some { mainUnitId := some "app/0", secretSigningId := none },
    secrets := [], nextSecretId := 0, container := mkContainer [],
    appliedConfig := none, status := Status.unknown, matrixAuth := none }

/-- The spec's worked example: three units, `unit/0` is main. -/
def c1Env : Env :=
  { selfName := "unit/0", appName := "app", leader := true,
    peerNames := ["unit/1", "unit/2"], plannedUnits := 3, serverName := "srv" }

def c1Store : Option PeerStore :=
  some { mainUnitId := some "unit/0", secretSigningId := none }

/-- A blocked state, for the sticky-status witness. -/
def c8St : SysState Unit :=
  { store := none, secrets := [], nextSecretId := 0,
    container := mkContainer [], appliedConfig := none,
    status := Status.blocked "config error", matrixAuth := none }

/-- Two observers with distinct names and no recorded main. -/
def c9EnvA : Env :=
  { selfName := "app/0", appName := "app", leader := false, peerNames := [],
    plannedUnits := 2, serverName := "srv" }

def c9EnvB : Env :=
  { selfName := "app/1", appName := "app", leader := false, peerNames := [],
    plannedUnits := 2, serverName := "srv" }

section Lemmas

variable {Config : Type}

theorem takeWhile_all {p : Char → Bool} {l : List Char} (h : ∀ x ∈ l, p x) :
    l.takeWhile p = l := by
  induction l with
  | nil => rfl
  | cons c rest ih =>
    rw [List.takeWhile_cons, h c (by simp)]
    simp [ih (fun x hx => h x (by simp [hx]))]

theorem takeWhile_append_stop {p : Char → Bool} {l₁ l₂ : List Char} {c : Char}
    (h : ∀ x ∈ l₁, p x) (hc : p c = false) :
    (l₁ ++ c :: l₂).takeWhile p = l₁ := by
  induction l₁ with
  | nil => simp [List.takeWhile_cons, hc]
  | cons a rest ih =>
    rw [List.cons_append, List.takeWhile_cons, h a (by simp)]
    simp [ih (fun x hx => h x (by simp [hx]))]

theorem digit_ne_dot {c : Char} (h : c.isDigit) : c ≠ '.' := by
  intro he; rw [he] at h; simp [Char.isDigit] at h

theorem digit_ne_slash {c : Char} (h : c.isDigit) : c ≠ '/' := by
  intro he; rw [he] at h; simp [Char.isDigit] at h

theorem digit_ne_dash {c : Char} (h : c.isDigit) : c ≠ '-' := by
  intro he; rw [he] at h; simp [Char.isDigit] at h

theorem getUnitNumber_slash (app N : String) (happ : '.' ∉ app.data)
    (hN : ∀ c ∈ N.data, c.isDigit) :
    getUnitNumber (app ++ "/" ++ N) = N := by
  simp only [getUnitNumber]
  have hdata : (app ++ "/" ++ N).data = app.data ++ '/' :: N.data := by
    simp [String.data_append]
  rw [hdata]
  have h1 : (app.data ++ '/' :: N.data).takeWhile (fun x => x ≠ '.')
      = app.data ++ '/' :: N.data := by
    apply takeWhile_all
    intro x hx
    simp only [List.mem_append, List.mem_cons] at hx
    simp only [ne_eq, decide_eq_true_eq]
    rcases hx with hx | hx | hx
    · exact fun he => happ (he ▸ hx)
    · subst hx; decide
    · exact digit_ne_dot (hN x hx)
  rw [h1, if_pos (by simp : '/' ∈ app.data ++ '/' :: N.data)]
  unfold afterLast
  have h2 : (app.data ++ '/' :: N.data).reverse
      = N.data.reverse ++ '/' :: app.data.reverse := by simp
  rw [h2, takeWhile_append_stop (fun x hx => ?_) (by decide)]
  · simp only [List.reverse_reverse]
  · simp only [ne_eq, decide_eq_true_eq]
    exact digit_ne_slash (hN x (List.mem_reverse.mp hx))

theorem getUnitNumber_dash (app N suffix : String) (happ : '.' ∉ app.data)
    (happ2 : '/' ∉ app.data) (hN : ∀ c ∈ N.data, c.isDigit)
    (hsuf : suffix.data = [] ∨ ∃ rest, suffix.data = '.' :: rest) :
    getUnitNumber (app ++ "-" ++ N ++ suffix) = N := by
  simp only [getUnitNumber]
  have hdata : (app ++ "-" ++ N ++ suffix).data
      = (app.data ++ '-' :: N.data) ++ suffix.data := by
    simp [String.data_append]
  rw [hdata]
  have h1 : ((app.data ++ '-' :: N.data) ++ suffix.data).takeWhile (fun x => x ≠ '.')
      = app.data ++ '-' :: N.data := by
    rcases hsuf with hsuf | ⟨rest, hsuf⟩
    · rw [hsuf, List.append_nil]
      apply takeWhile_all
      intro x hx
      simp only [List.mem_append, List.mem_cons] at hx
      simp only [ne_eq, decide_eq_true_eq]
      rcases hx with hx | hx | hx
      · exact fun he => happ (he ▸ hx)
      · subst hx; decide
      · exact digit_ne_dot (hN x hx)
    · rw [hsuf]
      apply takeWhile_append_stop
      · intro x hx
        simp only [List.mem_append, List.mem_cons] at hx
        simp only [ne_eq, decide_eq_true_eq]
        rcases hx with hx | hx | hx
        · exact fun he => happ (he ▸ hx)
        · subst hx; decide
        · exact digit_ne_dot (hN x hx)
      · decide
  rw [h1]
  rw [if_neg ?npos]
  case npos =>
    intro hmem
    simp only [List.mem_append, List.mem_cons] at hmem
    rcases hmem with hmem | hmem | hmem
    · exact happ2 hmem
    · exact absurd hmem.symm (by decide)
    · exact digit_ne_slash (hN _ hmem) rfl
  rw [if_pos (by simp : '-' ∈ app.data ++ '-' :: N.data)]
  unfold afterLast
  have h2 : (app.data ++ '-' :: N.data).reverse
      = N.data.reverse ++ '-' :: app.data.reverse := by simp
  rw [h2, takeWhile_append_stop (fun x hx => ?_) (by decide)]
  · simp only [List.reverse_reverse]
  · simp only [ne_eq, decide_eq_true_eq]
    exact digit_ne_dash (hN x (List.mem_reverse.mp hx))

theorem getUnitNumber_no_sep (s : String) (h1 : '/' ∉ s.data) (h2 : '-' ∉ s.data)
    (h3 : '.' ∉ s.data) : getUnitNumber s = s := by
  simp only [getUnitNumber]
  have ht : s.data.takeWhile (fun x => x ≠ '.') = s.data := by
    apply takeWhile_all
    intro x hx
    simp only [ne_eq, decide_eq_true_eq]
    exact fun he => h3 (he ▸ hx)
  rw [ht, if_neg h1, if_neg h2]

theorem gmua_congr (env : Env) {s₁ s₂ : Option PeerStore}
    (h : getMainUnit s₁ = getMainUnit s₂) :
    getMainUnitAddress env s₁ = getMainUnitAddress env s₂ := by
  unfold getMainUnitAddress; rw [h]

theorem peerAddresses_congr (env : Env) {s₁ s₂ : Option PeerStore}
    (h : s₁.isSome = s₂.isSome) : peerAddresses env s₁ = peerAddresses env s₂ := by
  unfold peerAddresses
  cases s₁ <;> cases s₂ <;> simp_all

theorem bim_congr (env : Env) {s₁ s₂ : Option PeerStore}
    (hsome : s₁.isSome = s₂.isSome)
    (haddr : getMainUnitAddress env s₁ = getMainUnitAddress env s₂) :
    buildInstanceMap env s₁ = buildInstanceMap env s₂ := by
  unfold buildInstanceMap
  rw [haddr, peerAddresses_congr env hsome]

theorem bootstrapSt_container (env : Env) (st : SysState Config) :
    (bootstrapSt env st).container = st.container := by
  unfold bootstrapSt; split <;> rfl

theorem bootstrapSt_secrets (env : Env) (st : SysState Config) :
    (bootstrapSt env st).secrets = st.secrets := by
  unfold bootstrapSt; split <;> rfl

theorem bootstrapSt_status (env : Env) (st : SysState Config) :
    (bootstrapSt env st).status = st.status := by
  unfold bootstrapSt; split <;> rfl

theorem bootstrapSt_nextSecretId (env : Env) (st : SysState Config) :
    (bootstrapSt env st).nextSecretId = st.nextSecretId := by
  unfold bootstrapSt; split <;> rfl

theorem bootstrapSt_storeRef (env : Env) (st : SysState Config) :
    storeRef (bootstrapSt env st) = storeRef st := by
  cases hs : st.store with
  | none => by_cases hl : env.leader <;>
      simp [bootstrapSt, setMainUnit, storeRef, getMainUnit, hs, hl]
  | some s =>
    by_cases hl : env.leader <;> cases hm : s.mainUnitId <;>
      simp [bootstrapSt, setMainUnit, storeRef, getMainUnit, hs, hl, hm]

theorem bootstrapSt_isSome (env : Env) (st : SysState Config) :
    (bootstrapSt env st).store.isSome = st.store.isSome := by
  cases hs : st.store with
  | none => by_cases hl : env.leader <;>
      simp [bootstrapSt, setMainUnit, getMainUnit, hs, hl]
  | some s =>
    by_cases hl : env.leader <;> cases hm : s.mainUnitId <;>
      simp [bootstrapSt, setMainUnit, getMainUnit, hs, hl, hm]

theorem bootstrapSt_main (env : Env) (st : SysState Config) :
    getMainUnit (bootstrapSt env st).store =
      if getMainUnit st.store = none ∧ env.leader = true ∧ st.store.isSome = true then
        some env.selfName
      else getMainUnit st.store := by
  cases hs : st.store with
  | none => by_cases hl : env.leader <;>
      simp [bootstrapSt, setMainUnit, getMainUnit, hs, hl]
  | some s =>
    by_cases hl : env.leader <;> cases hm : s.mainUnitId <;>
      simp [bootstrapSt, setMainUnit, getMainUnit, hs, hl, hm]

theorem bootstrapSt_mainAddr (env : Env) (st : SysState Config) :
    getMainUnitAddress env (bootstrapSt env st).store = getMainUnitAddress env st.store := by
  unfold getMainUnitAddress
  rw [bootstrapSt_main]
  split
  · rename_i h
    rw [h.1]
    rfl
  · rfl

theorem bootstrapSt_resolveKey (env : Env) (st : SysState Config) :
    resolveKey (bootstrapSt env st) = resolveKey st := by
  unfold resolveKey
  rw [bootstrapSt_storeRef, bootstrapSt_secrets]

theorem gsk_fst (st : SysState Config) : (getSigningKeyT st).1 = resolveKey st := by
  cases hs : st.store with
  | none => simp [getSigningKeyT, resolveKey, storeRef, hs]
  | some s =>
    cases hr : s.secretSigningId with
    | none => simp [getSigningKeyT, resolveKey, storeRef, hs, hr]
    | some sid =>
      cases hl : lookupSecret st.secrets sid <;>
        simp [getSigningKeyT, resolveKey, storeRef, hs, hr, hl]

theorem gsk_secrets (st : SysState Config) : (getSigningKeyT st).2.secrets = st.secrets := by
  cases hs : st.store with
  | none => simp [getSigningKeyT, hs]
  | some s =>
    cases hr : s.secretSigningId with
    | none => simp [getSigningKeyT, hs, hr]
    | some sid =>
      cases hl : lookupSecret st.secrets sid <;> simp [getSigningKeyT, hs, hr, hl]

theorem gsk_container (st : SysState Config) : (getSigningKeyT st).2.container = st.container := by
  cases hs : st.store with
  | none => simp [getSigningKeyT, hs]
  | some s =>
    cases hr : s.secretSigningId with
    | none => simp [getSigningKeyT, hs, hr]
    | some sid =>
      cases hl : lookupSecret st.secrets sid <;> simp [getSigningKeyT, hs, hr, hl]

theorem gsk_status (st : SysState Config) : (getSigningKeyT st).2.status = st.status := by
  cases hs : st.store with
  | none => simp [getSigningKeyT, hs]
  | some s =>
    cases hr : s.secretSigningId with
    | none => simp [getSigningKeyT, hs, hr]
    | some sid =>
      cases hl : lookupSecret st.secrets sid <;> simp [getSigningKeyT, hs, hr, hl]

theorem gsk_nextSecretId (st : SysState Config) :
    (getSigningKeyT st).2.nextSecretId = st.nextSecretId := by
  cases hs : st.store with
  | none => simp [getSigningKeyT, hs]
  | some s =>
    cases hr : s.secretSigningId with
    | none => simp [getSigningKeyT, hs, hr]
    | some sid =>
      cases hl : lookupSecret st.secrets sid <;> simp [getSigningKeyT, hs, hr, hl]

theorem gsk_main (st : SysState Config) :
    getMainUnit (getSigningKeyT st).2.store = getMainUnit st.store := by
  cases hs : st.store with
  | none => simp [getSigningKeyT, getMainUnit, hs]
  | some s =>
    cases hr : s.secretSigningId with
    | none => simp [getSigningKeyT, getMainUnit, hs, hr]
    | some sid =>
      cases hl : lookupSecret st.secrets sid <;>
        simp [getSigningKeyT, getMainUnit, hs, hr, hl]

theorem gsk_isSome (st : SysState Config) :
    (getSigningKeyT st).2.store.isSome = st.store.isSome := by
  cases hs : st.store with
  | none => simp [getSigningKeyT, hs]
  | some s =>
    cases hr : s.secretSigningId with
    | none => simp [getSigningKeyT, hs, hr]
    | some sid =>
      cases hl : lookupSecret st.secrets sid <;> simp [getSigningKeyT, hs, hr, hl]

theorem gsk_of_resolve_some {st : SysState Config} {k : String}
    (h : resolveKey st = some k) : getSigningKeyT st = (some k, st) := by
  cases hs : st.store with
  | none => simp [resolveKey, storeRef, hs] at h
  | some s =>
    cases hr : s.secretSigningId with
    | none => simp [resolveKey, storeRef, hs, hr] at h
    | some sid =>
      have hl : lookupSecret st.secrets sid = some k := by
        simpa [resolveKey, storeRef, hs, hr] using h
      simp [getSigningKeyT, hs, hr, hl]

theorem gsk_storeRef (st : SysState Config) :
    storeRef (getSigningKeyT st).2 =
      match resolveKey st with
      | none => none
      | some _ => storeRef st := by
  cases hs : st.store with
  | none => simp [getSigningKeyT, resolveKey, storeRef, hs]
  | some s =>
    cases hr : s.secretSigningId with
    | none => simp [getSigningKeyT, resolveKey, storeRef, hs, hr]
    | some sid =>
      cases hl : lookupSecret st.secrets sid <;>
        simp [getSigningKeyT, resolveKey, storeRef, hs, hr, hl]

theorem ssk_main (env : Env) (k : String) (st : SysState Config) :
    getMainUnit (setSigningKeyT env k st).store = getMainUnit st.store := by
  cases hs : st.store with
  | none => simp [setSigningKeyT, getMainUnit, hs]
  | some s =>
    cases hr : s.secretSigningId with
    | none =>
      by_cases hl : env.leader <;> simp [setSigningKeyT, getMainUnit, hs, hr, hl]
    | some sid =>
      cases hc : lookupSecret st.secrets sid <;> by_cases hl : env.leader <;>
        by_cases hk : lookupSecret st.secrets sid = some k <;>
        simp_all [setSigningKeyT, getMainUnit, hs, hr]

theorem ssk_container (env : Env) (k : String) (st : SysState Config) :
    (setSigningKeyT env k st).container = st.container := by
  cases hs : st.store with
  | none => simp [setSigningKeyT, hs]
  | some s =>
    cases hr : s.secretSigningId with
    | none =>
      by_cases hl : env.leader <;> simp [setSigningKeyT, hs, hr, hl]
    | some sid =>
      cases hc : lookupSecret st.secrets sid <;> by_cases hl : env.leader <;>
        by_cases hk : lookupSecret st.secrets sid = some k <;>
        simp_all [setSigningKeyT, hs, hr]

theorem ssk_status (env : Env) (k : String) (st : SysState Config) :
    (setSigningKeyT env k st).status = st.status := by
  cases hs : st.store with
  | none => simp [setSigningKeyT, hs]
  | some s =>
    cases hr : s.secretSigningId with
    | none =>
      by_cases hl : env.leader <;> simp [setSigningKeyT, hs, hr, hl]
    | some sid =>
      cases hc : lookupSecret st.secrets sid <;> by_cases hl : env.leader <;>
        by_cases hk : lookupSecret st.secrets sid = some k <;>
        simp_all [setSigningKeyT, hs, hr]

theorem ssk_appliedConfig (env : Env) (k : String) (st : SysState Config) :
    (setSigningKeyT env k st).appliedConfig = st.appliedConfig := by
  cases hs : st.store with
  | none => simp [setSigningKeyT, hs]
  | some s =>
    cases hr : s.secretSigningId with
    | none =>
      by_cases hl : env.leader <;> simp [setSigningKeyT, hs, hr, hl]
    | some sid =>
      cases hc : lookupSecret st.secrets sid <;> by_cases hl : env.leader <;>
        by_cases hk : lookupSecret st.secrets sid = some k <;>
        simp_all [setSigningKeyT, hs, hr]

theorem ssk_matrixAuth (env : Env) (k : String) (st : SysState Config) :
    (setSigningKeyT env k st).matrixAuth = st.matrixAuth := by
  cases hs : st.store with
  | none => simp [setSigningKeyT, hs]
  | some s =>
    cases hr : s.secretSigningId with
    | none =>
      by_cases hl : env.leader <;> simp [setSigningKeyT, hs, hr, hl]
    | some sid =>
      cases hc : lookupSecret st.secrets sid <;> by_cases hl : env.leader <;>
        by_cases hk : lookupSecret st.secrets sid = some k <;>
        simp_all [setSigningKeyT, hs, hr]

theorem ssk_isSome (env : Env) (k : String) (st : SysState Config) :
    (setSigningKeyT env k st).store.isSome = st.store.isSome := by
  cases hs : st.store with
  | none => simp [setSigningKeyT, hs]
  | some s =>
    cases hr : s.secretSigningId with
    | none =>
      by_cases hl : env.leader <;> simp [setSigningKeyT, hs, hr, hl]
    | some sid =>
      cases hc : lookupSecret st.secrets sid <;> by_cases hl : env.leader <;>
        by_cases hk : lookupSecret st.secrets sid = some k <;>
        simp_all [setSigningKeyT, hs, hr]

theorem ssk_secrets_nonleader (env : Env) (k : String) (st : SysState Config)
    (hl : env.leader = false) : (setSigningKeyT env k st).secrets = st.secrets := by
  cases hs : st.store with
  | none => simp [setSigningKeyT, hs]
  | some s =>
    cases hr : s.secretSigningId with
    | none => simp [setSigningKeyT, hs, hr, hl]
    | some sid =>
      cases hc : lookupSecret st.secrets sid <;>
        by_cases hk : lookupSecret st.secrets sid = some k <;>
        simp_all [setSigningKeyT, hs, hr]

theorem ssk_secrets_change (env : Env) (k : String) (st : SysState Config)
    (h : (setSigningKeyT env k st).secrets ≠ st.secrets) :
    env.leader = true ∧ resolveKey st ≠ some k := by
  cases hs : st.store with
  | none => simp [setSigningKeyT, hs] at h
  | some s =>
    cases hr : s.secretSigningId with
    | none =>
      by_cases hl : env.leader
      · refine ⟨hl, ?_⟩
        simp [resolveKey, storeRef, hs, hr]
      · simp [setSigningKeyT, hs, hr, hl] at h
    | some sid =>
      by_cases hk : lookupSecret st.secrets sid = some k
      · simp [setSigningKeyT, hs, hr, hk] at h
      · by_cases hl : env.leader
        · refine ⟨hl, ?_⟩
          simpa [resolveKey, storeRef, hs, hr] using hk
        · cases hc : lookupSecret st.secrets sid <;>
            simp_all [setSigningKeyT, hs, hr]

theorem sus_store (st : SysState Config) : (setUnitStatus st).store = st.store := by
  unfold setUnitStatus
  cases hst : st.status <;> first | rfl | (split_ifs <;> rfl)

theorem sus_secrets (st : SysState Config) : (setUnitStatus st).secrets = st.secrets := by
  unfold setUnitStatus
  cases hst : st.status <;> first | rfl | (split_ifs <;> rfl)

theorem sus_container (st : SysState Config) :
    (setUnitStatus st).container = st.container := by
  unfold setUnitStatus
  cases hst : st.status <;> first | rfl | (split_ifs <;> rfl)

theorem sus_nextSecretId (st : SysState Config) :
    (setUnitStatus st).nextSecretId = st.nextSecretId := by
  unfold setUnitStatus
  cases hst : st.status <;> first | rfl | (split_ifs <;> rfl)

theorem sus_appliedConfig (st : SysState Config) :
    (setUnitStatus st).appliedConfig = st.appliedConfig := by
  unfold setUnitStatus
  cases hst : st.status <;> first | rfl | (split_ifs <;> rfl)

theorem sus_matrixAuth (st : SysState Config) :
    (setUnitStatus st).matrixAuth = st.matrixAuth := by
  unfold setUnitStatus
  cases hst : st.status <;> first | rfl | (split_ifs <;> rfl)

theorem sus_status (st : SysState Config) (h : ∀ r, st.status ≠ .blocked r) :
    (setUnitStatus st).status = statusFrom st.container := by
  unfold setUnitStatus statusFrom
  cases hst : st.status with
  | blocked r => exact absurd hst (h r)
  | unknown => split_ifs <;> rfl
  | maintenance m => split_ifs <;> rfl
  | active => split_ifs <;> rfl

theorem fr_main (env : Env) (W : Workload Config) (im : Option InstanceMap)
    (st : SysState Config) :
    getMainUnit (finishReconcile env W im st).store = getMainUnit st.store := by
  unfold finishReconcile
  by_cases hl : env.leader <;> simp [hl, sus_store]

theorem fr_secrets (env : Env) (W : Workload Config) (im : Option InstanceMap)
    (st : SysState Config) :
    (finishReconcile env W im st).secrets = st.secrets := by
  unfold finishReconcile
  by_cases hl : env.leader <;> simp [hl, sus_secrets]

theorem fr_isSome (env : Env) (W : Workload Config) (im : Option InstanceMap)
    (st : SysState Config) :
    (finishReconcile env W im st).store.isSome = st.store.isSome := by
  unfold finishReconcile
  by_cases hl : env.leader <;> simp [hl, sus_store]

theorem fr_storeRef (env : Env) (W : Workload Config) (im : Option InstanceMap)
    (st : SysState Config) :
    storeRef (finishReconcile env W im st) = storeRef st := by
  unfold finishReconcile storeRef
  by_cases hl : env.leader <;> simp [hl, sus_store]

theorem fr_canConnect (env : Env) (W : Workload Config) (im : Option InstanceMap)
    (st : SysState Config) :
    (finishReconcile env W im st).container.canConnect = st.container.canConnect := by
  unfold finishReconcile
  by_cases hl : env.leader <;> simp [hl, sus_container]

theorem fr_status (env : Env) (W : Workload Config) (im : Option InstanceMap)
    (st : SysState Config) (h : ∀ r, st.status ≠ .blocked r) :
    (finishReconcile env W im st).status =
      statusFrom { st.container with
        nginxRunning := W.ngxAfter (getMainUnitAddress env st.store),
        nginxMainAddr := some (getMainUnitAddress env st.store) } := by
  unfold finishReconcile
  by_cases hl : env.leader <;> simp [hl] <;> rw [sus_status] <;>
    first | rfl | (intro r; simpa using h r)

theorem configuringSt_store (st : SysState Config) :
    (configuringSt st).store = st.store := rfl

theorem configuringSt_secrets (st : SysState Config) :
    (configuringSt st).secrets = st.secrets := rfl

theorem configuringSt_container (st : SysState Config) :
    (configuringSt st).container = st.container := rfl

theorem configuringSt_nextSecretId (st : SysState Config) :
    (configuringSt st).nextSecretId = st.nextSecretId := rfl

theorem configuringSt_status (st : SysState Config) :
    (configuringSt st).status = Status.maintenance "Configuring Synapse" := rfl

theorem resolveKey_configuringSt (st : SysState Config) :
    resolveKey (configuringSt st) = resolveKey st := rfl

theorem storeRef_configuringSt (st : SysState Config) :
    storeRef (configuringSt st) = storeRef st := rfl

theorem pushKeySt_store (env : Env) (g : Option String × SysState Config) :
    (pushKeySt env g).store = g.2.store := by
  rcases g with ⟨k, s⟩; cases k <;> rfl

theorem pushKeySt_secrets (env : Env) (g : Option String × SysState Config) :
    (pushKeySt env g).secrets = g.2.secrets := by
  rcases g with ⟨k, s⟩; cases k <;> rfl

theorem pushKeySt_status (env : Env) (g : Option String × SysState Config) :
    (pushKeySt env g).status = g.2.status := by
  rcases g with ⟨k, s⟩; cases k <;> rfl

theorem pushKeySt_nextSecretId (env : Env) (g : Option String × SysState Config) :
    (pushKeySt env g).nextSecretId = g.2.nextSecretId := by
  rcases g with ⟨k, s⟩; cases k <;> rfl

theorem pushKeySt_canConnect (env : Env) (g : Option String × SysState Config) :
    (pushKeySt env g).container.canConnect = g.2.container.canConnect := by
  rcases g with ⟨k, s⟩; cases k <;> rfl

theorem pushKeySt_synapseRunning (env : Env) (g : Option String × SysState Config) :
    (pushKeySt env g).container.synapseRunning = g.2.container.synapseRunning := by
  rcases g with ⟨k, s⟩; cases k <;> rfl

theorem pushKeySt_nginxRunning (env : Env) (g : Option String × SysState Config) :
    (pushKeySt env g).container.nginxRunning = g.2.container.nginxRunning := by
  rcases g with ⟨k, s⟩; cases k <;> rfl

theorem pushKeySt_container_of_none (env : Env) {g : Option String × SysState Config}
    (h : g.1 = none) : (pushKeySt env g).container = g.2.container := by
  rcases g with ⟨k, s⟩
  simp only at h
  subst h
  rfl

theorem applySt_store (W : Workload Config) (cfg : Config) (st : SysState Config) :
    (applySt W cfg st).store = st.store := rfl

theorem applySt_secrets (W : Workload Config) (cfg : Config) (st : SysState Config) :
    (applySt W cfg st).secrets = st.secrets := rfl

theorem applySt_status (W : Workload Config) (cfg : Config) (st : SysState Config) :
    (applySt W cfg st).status = st.status := rfl

theorem applySt_nextSecretId (W : Workload Config) (cfg : Config) (st : SysState Config) :
    (applySt W cfg st).nextSecretId = st.nextSecretId := rfl

theorem applySt_canConnect (W : Workload Config) (cfg : Config) (st : SysState Config) :
    (applySt W cfg st).container.canConnect = st.container.canConnect := rfl

theorem applySt_files (W : Workload Config) (cfg : Config) (st : SysState Config) :
    (applySt W cfg st).container.files = st.container.files := rfl

theorem applySt_synapseRunning (W : Workload Config) (cfg : Config) (st : SysState Config) :
    (applySt W cfg st).container.synapseRunning = W.synAfter cfg := rfl

theorem applySt_nginxRunning (W : Workload Config) (cfg : Config) (st : SysState Config) :
    (applySt W cfg st).container.nginxRunning = st.container.nginxRunning := rfl

theorem rec_main (env : Env) (W : Workload Config) (im : Option InstanceMap)
    (st : SysState Config) :
    getMainUnit ((reconcileT env W im st).1).store
      = getMainUnit (bootstrapSt env st).store := by
  unfold reconcileT
  dsimp only
  split
  · rfl
  · split
    · simp [pushKeySt_store, gsk_main, configuringSt_store]
    · split
      · split
        · simp [applySt_store, pushKeySt_store, gsk_main, configuringSt_store]
        · simp [fr_main, ssk_main, applySt_store, pushKeySt_store, gsk_main,
            configuringSt_store]
      · simp [fr_main, applySt_store, pushKeySt_store, gsk_main, configuringSt_store]

theorem rec_isSome (env : Env) (W : Workload Config) (im : Option InstanceMap)
    (st : SysState Config) :
    ((reconcileT env W im st).1).store.isSome = st.store.isSome := by
  have hb := bootstrapSt_isSome env st
  unfold reconcileT
  dsimp only
  split
  · exact hb
  · split
    · rw [pushKeySt_store]
      simp only [gsk_isSome, configuringSt_store]
      exact hb
    · split
      · split
        · rw [applySt_store, pushKeySt_store]
          simp only [gsk_isSome, configuringSt_store]
          exact hb
        · rw [fr_isSome, ssk_isSome, applySt_store, pushKeySt_store]
          simp only [gsk_isSome, configuringSt_store]
          exact hb
      · rw [fr_isSome, applySt_store, pushKeySt_store]
        simp only [gsk_isSome, configuringSt_store]
        exact hb

theorem rec_canConnect (env : Env) (W : Workload Config) (im : Option InstanceMap)
    (st : SysState Config) :
    ((reconcileT env W im st).1).container.canConnect = st.container.canConnect := by
  have hb : (bootstrapSt env st).container.canConnect = st.container.canConnect := by
    rw [bootstrapSt_container]
  unfold reconcileT
  dsimp only
  split
  · exact hb
  · split
    · rw [pushKeySt_canConnect]
      simp only [gsk_container, configuringSt_container]
      exact hb
    · split
      · split
        · rw [applySt_canConnect, pushKeySt_canConnect]
          simp only [gsk_container, configuringSt_container]
          exact hb
        · rw [fr_canConnect, ssk_container, applySt_canConnect, pushKeySt_canConnect]
          simp only [gsk_container, configuringSt_container]
          exact hb
      · rw [fr_canConnect, applySt_canConnect, pushKeySt_canConnect]
        simp only [gsk_container, configuringSt_container]
        exact hb

theorem rec_secrets_nonleader (env : Env) (W : Workload Config) (im : Option InstanceMap)
    (st : SysState Config) (hl : env.leader = false) :
    ((reconcileT env W im st).1).secrets = st.secrets := by
  have hb := bootstrapSt_secrets env st
  unfold reconcileT
  dsimp only
  split
  · exact hb
  · split
    · rw [pushKeySt_secrets]
      simp only [gsk_secrets, configuringSt_secrets]
      exact hb
    · split
      · split
        · rw [applySt_secrets, pushKeySt_secrets]
          simp only [gsk_secrets, configuringSt_secrets]
          exact hb
        · rw [fr_secrets, ssk_secrets_nonleader _ _ _ hl, applySt_secrets,
            pushKeySt_secrets]
          simp only [gsk_secrets, configuringSt_secrets]
          exact hb
      · rw [fr_secrets, applySt_secrets, pushKeySt_secrets]
        simp only [gsk_secrets, configuringSt_secrets]
        exact hb

theorem rec_secrets_change (env : Env) (W : Workload Config) (im : Option InstanceMap)
    (st : SysState Config)
    (h : ((reconcileT env W im st).1).secrets ≠ st.secrets) :
    isMain env (bootstrapSt env st).store = true := by
  have hb := bootstrapSt_secrets env st
  by_contra hmain
  apply h
  unfold reconcileT
  dsimp only
  split
  · exact hb
  · split
    · rw [pushKeySt_secrets]
      simp only [gsk_secrets, configuringSt_secrets]
      exact hb
    · split
      · rename_i hcond
        refine absurd ?_ hmain
        have hm := hcond.1
        rw [applySt_store, pushKeySt_store] at hm
        simpa [isMain, gsk_main, configuringSt_store] using hm
      · rw [fr_secrets, applySt_secrets, pushKeySt_secrets]
        simp only [gsk_secrets, configuringSt_secrets]
        exact hb

theorem statusFrom_congr {c₁ c₂ : Container} (h1 : c₁.canConnect = c₂.canConnect)
    (h2 : c₁.synapseRunning = c₂.synapseRunning)
    (h3 : c₁.nginxRunning = c₂.nginxRunning) : statusFrom c₁ = statusFrom c₂ := by
  unfold statusFrom
  rw [h1, h2, h3]

theorem readFile_congr {c₁ c₂ : Container} (p : String) (h : c₁.files = c₂.files) :
    readFile p c₁ = readFile p c₂ := by
  unfold readFile; rw [h]

theorem rec_out_eq (env : Env) (W : Workload Config) (im : Option InstanceMap)
    (st : SysState Config) :
    (reconcileT env W im st).1.status = (recOut env W im st).1 ∧
    (reconcileT env W im st).2 = (recOut env W im st).2 := by
  unfold reconcileT recOut
  dsimp only
  rw [bootstrapSt_container]
  by_cases hcn : st.container.canConnect = false
  · simp [hcn]
  · rw [if_neg hcn, if_neg hcn]
    have hm3 : isMain env
        (pushKeySt env (getSigningKeyT (configuringSt (bootstrapSt env st)))).store
        = isMain env (bootstrapSt env st).store := by
      simp [isMain, pushKeySt_store, gsk_main, configuringSt_store]
    rw [hm3]
    have hg1 : (getSigningKeyT (configuringSt (bootstrapSt env st))).1
        = resolveKey (bootstrapSt env st) := by
      rw [gsk_fst, resolveKey_configuringSt]
    cases ho : W.applyOutcome
        (W.desired im (isMain env (bootstrapSt env st).store)
          (getUnitNumber env.selfName)) with
    | some e => simp
    | none =>
      dsimp only
      have hm4 : ∀ cfg : Config, isMain env
          (applySt W cfg
            (pushKeySt env (getSigningKeyT (configuringSt (bootstrapSt env st))))).store
          = isMain env (bootstrapSt env st).store := by
        intro cfg
        rw [applySt_store]
        exact hm3
      rw [hm4, hg1]
      have haddr : ∀ stX : SysState Config, getMainUnit stX.store
            = getMainUnit (bootstrapSt env st).store →
          getMainUnitAddress env stX.store = getMainUnitAddress env st.store := by
        intro stX hX
        rw [gmua_congr env hX, bootstrapSt_mainAddr]
      have hfinS : ∀ (stX : SysState Config) (sy : Bool),
          stX.status = Status.maintenance "Configuring Synapse" →
          getMainUnit stX.store = getMainUnit (bootstrapSt env st).store →
          stX.container.canConnect = st.container.canConnect →
          stX.container.synapseRunning = sy →
          (finishReconcile env W im stX).status = statusFrom
            { st.container with
              synapseRunning := sy,
              nginxRunning := W.ngxAfter (getMainUnitAddress env st.store),
              nginxMainAddr := some (getMainUnitAddress env st.store) } := by
        intro stX sy h1 h2 h3 h4
        rw [fr_status _ _ _ _ (by intro r; rw [h1]; simp)]
        rw [haddr stX h2]
        apply statusFrom_congr <;> simp [h3, h4]
      by_cases hmB : isMain env (bootstrapSt env st).store = true
      · by_cases hrk : resolveKey (bootstrapSt env st) = none
        · rw [if_pos ⟨hmB, hrk⟩]
          have hfiles : readFile (signingKeyPath env)
              (applySt W
                (W.desired im (isMain env (bootstrapSt env st).store)
                  (getUnitNumber env.selfName))
                (pushKeySt env
                  (getSigningKeyT (configuringSt (bootstrapSt env st))))).container
              = readFile (signingKeyPath env) st.container := by
            rw [readFile_congr _ (applySt_files _ _ _),
              readFile_congr _
                (congrArg Container.files
                  (pushKeySt_container_of_none env (hg1.trans hrk))),
              readFile_congr _
                (congrArg Container.files ((gsk_container _).trans
                  ((configuringSt_container _).trans (bootstrapSt_container env st))))]
          rw [hfiles]
          by_cases hrf : readFile (signingKeyPath env) st.container = none
          · rw [hrf, if_pos ⟨hmB, hrk, rfl⟩]
            exact ⟨rfl, rfl⟩
          · cases hread : readFile (signingKeyPath env) st.container with
            | none => exact absurd hread hrf
            | some content =>
              rw [if_neg (by simp [hread])]
              dsimp only
              refine ⟨?_, rfl⟩
              exact hfinS _ _
                (by rw [ssk_status, applySt_status, pushKeySt_status, gsk_status,
                  configuringSt_status])
                (by rw [ssk_main, applySt_store, pushKeySt_store, gsk_main,
                  configuringSt_store])
                (by rw [ssk_container, applySt_canConnect, pushKeySt_canConnect,
                  gsk_container, configuringSt_container, bootstrapSt_container])
                (by rw [ssk_container, applySt_synapseRunning])
        · rw [if_neg (by simp [hrk]), if_neg (by simp [hrk])]
          dsimp only
          refine ⟨?_, rfl⟩
          exact hfinS _ _
            (by rw [applySt_status, pushKeySt_status, gsk_status, configuringSt_status])
            (by rw [applySt_store, pushKeySt_store, gsk_main, configuringSt_store])
            (by rw [applySt_canConnect, pushKeySt_canConnect, gsk_container,
              configuringSt_container, bootstrapSt_container])
            (applySt_synapseRunning _ _ _)
      · rw [if_neg (by simp [hmB]), if_neg (by simp [hmB])]
        dsimp only
        refine ⟨?_, rfl⟩
        exact hfinS _ _
          (by rw [applySt_status, pushKeySt_status, gsk_status, configuringSt_status])
          (by rw [applySt_store, pushKeySt_store, gsk_main, configuringSt_store])
          (by rw [applySt_canConnect, pushKeySt_canConnect, gsk_container,
            configuringSt_container, bootstrapSt_container])
          (applySt_synapseRunning _ _ _)

theorem fr_store (env : Env) (W : Workload Config) (im : Option InstanceMap)
    (st : SysState Config) :
    (finishReconcile env W im st).store = st.store := by
  unfold finishReconcile
  by_cases hl : env.leader <;> simp [hl, sus_store]

theorem fr_files (env : Env) (W : Workload Config) (im : Option InstanceMap)
    (st : SysState Config) :
    (finishReconcile env W im st).container.files = st.container.files := by
  unfold finishReconcile
  by_cases hl : env.leader <;> simp [hl, sus_container]

theorem storeRef_congr {st' st : SysState Config} (h : st'.store = st.store) :
    storeRef st' = storeRef st := by
  unfold storeRef; rw [h]

theorem resolveKey_of {st' st : SysState Config} (h1 : storeRef st' = storeRef st)
    (h2 : st'.secrets = st.secrets) : resolveKey st' = resolveKey st := by
  unfold resolveKey; rw [h1, h2]

theorem isMain_congr (env : Env) {s₁ s₂ : Option PeerStore}
    (h : getMainUnit s₁ = getMainUnit s₂) : isMain env s₁ = isMain env s₂ := by
  unfold isMain; rw [h]

theorem bootstrap_main_again (env : Env) (st st' : SysState Config)
    (h1 : getMainUnit st'.store = getMainUnit (bootstrapSt env st).store)
    (h2 : st'.store.isSome = st.store.isSome) :
    getMainUnit (bootstrapSt env st').store = getMainUnit (bootstrapSt env st).store := by
  rw [bootstrapSt_main env st']
  split
  · rename_i h
    obtain ⟨hn, hl, hs⟩ := h
    rw [h1, bootstrapSt_main env st] at hn
    by_cases horig : getMainUnit st.store = none ∧ env.leader = true ∧
        st.store.isSome = true
    · rw [if_pos horig] at hn
      exact absurd hn (by simp)
    · rw [if_neg horig] at hn
      exact absurd ⟨hn, hl, h2 ▸ hs⟩ horig
  · exact h1

theorem recOut_congr (env : Env) (W : Workload Config) (im : Option InstanceMap)
    (st stX : SysState Config)
    (hcc : stX.container.canConnect = st.container.canConnect)
    (hmain : getMainUnit stX.store = getMainUnit (bootstrapSt env st).store)
    (hsome : stX.store.isSome = st.store.isSome)
    (hiff : (resolveKey stX = none ∧
        readFile (signingKeyPath env) stX.container = none) ↔
      (resolveKey (bootstrapSt env st) = none ∧
        readFile (signingKeyPath env) st.container = none)) :
    recOut env W im stX = recOut env W im st := by
  unfold recOut
  rw [hcc]
  by_cases hcn : st.container.canConnect = false
  · rw [if_pos hcn, if_pos hcn]
  · rw [if_neg hcn, if_neg hcn]
    dsimp only
    have hm' : isMain env (bootstrapSt env stX).store
        = isMain env (bootstrapSt env st).store :=
      isMain_congr env (bootstrap_main_again env st stX hmain hsome)
    rw [hm']
    cases ho : W.applyOutcome
        (W.desired im (isMain env (bootstrapSt env st).store)
          (getUnitNumber env.selfName)) with
    | some e => rfl
    | none =>
      dsimp only
      have hrkX : resolveKey (bootstrapSt env stX) = resolveKey stX :=
        bootstrapSt_resolveKey env stX
      have haddrX : getMainUnitAddress env stX.store = getMainUnitAddress env st.store := by
        rw [gmua_congr env hmain, bootstrapSt_mainAddr]
      by_cases hmB : isMain env (bootstrapSt env st).store = true
      · by_cases hcondX : resolveKey stX = none ∧
            readFile (signingKeyPath env) stX.container = none
        · have hcondS := hiff.mp hcondX
          rw [if_pos ⟨hmB, hrkX.trans hcondX.1, hcondX.2⟩,
            if_pos ⟨hmB, hcondS.1, hcondS.2⟩]
        · rw [if_neg (by
              intro hcond
              exact hcondX ⟨hrkX ▸ hcond.2.1, hcond.2.2⟩),
            if_neg (by
              intro hcond
              exact hcondX (hiff.mpr ⟨hcond.2.1, hcond.2.2⟩))]
          rw [haddrX]
          exact congrArg₂ Prod.mk (statusFrom_congr hcc rfl rfl) rfl
      · rw [if_neg (by intro hcond; exact hmB hcond.1),
          if_neg (by intro hcond; exact hmB hcond.1)]
        rw [haddrX]
        exact congrArg₂ Prod.mk (statusFrom_congr hcc rfl rfl) rfl

theorem gsk_resolveKey (st : SysState Config) :
    resolveKey (getSigningKeyT st).2 = resolveKey st := by
  cases hs : st.store with
  | none => simp [getSigningKeyT, hs]
  | some s =>
    cases hr : s.secretSigningId with
    | none => simp [getSigningKeyT, hs, hr]
    | some sid =>
      cases hl : lookupSecret st.secrets sid <;>
        simp [getSigningKeyT, resolveKey, storeRef, hs, hr, hl]

theorem resolveKey_status (st : SysState Config) (v : Status) :
    resolveKey { st with status := v } = resolveKey st := rfl

theorem resolveKey_applySt (W : Workload Config) (cfg : Config) (st : SysState Config) :
    resolveKey (applySt W cfg st) = resolveKey st :=
  resolveKey_of (storeRef_congr (applySt_store W cfg st)) (applySt_secrets W cfg st)

theorem resolveKey_pushKeySt (env : Env) (g : Option String × SysState Config) :
    resolveKey (pushKeySt env g) = resolveKey g.2 :=
  resolveKey_of (storeRef_congr (pushKeySt_store env g)) (pushKeySt_secrets env g)

theorem resolveKey_fr (env : Env) (W : Workload Config) (im : Option InstanceMap)
    (st : SysState Config) :
    resolveKey (finishReconcile env W im st) = resolveKey st :=
  resolveKey_of (storeRef_congr (fr_store env W im st)) (fr_secrets env W im st)

theorem key_iff_aux (env : Env) (st stX : SysState Config)
    (hrk : resolveKey stX = resolveKey (bootstrapSt env st))
    (hrf : readFile (signingKeyPath env) stX.container =
      readFile (signingKeyPath env)
        (pushKeySt env (getSigningKeyT (configuringSt (bootstrapSt env st)))).container) :
    ((resolveKey stX = none ∧
        readFile (signingKeyPath env) stX.container = none) ↔
      (resolveKey (bootstrapSt env st) = none ∧
        readFile (signingKeyPath env) st.container = none)) := by
  rw [hrk, hrf]
  cases hk : resolveKey (bootstrapSt env st) with
  | some k => simp
  | none =>
    have hg1 : (getSigningKeyT (configuringSt (bootstrapSt env st))).1 = none := by
      rw [gsk_fst, resolveKey_configuringSt]; exact hk
    rw [readFile_congr _ (congrArg Container.files (pushKeySt_container_of_none env hg1)),
      readFile_congr _ (congrArg Container.files ((gsk_container _).trans
        ((configuringSt_container _).trans (bootstrapSt_container env st))))]

theorem rec_recOut_pres (env : Env) (W : Workload Config) (im : Option InstanceMap)
    (st : SysState Config) :
    recOut env W im ((reconcileT env W im st).1) = recOut env W im st := by
  unfold reconcileT
  dsimp only
  split
  · rename_i hcc
    refine recOut_congr env W im st _ ?_ rfl (bootstrapSt_isSome env st) ?_
    · rw [bootstrapSt_container]
    · rw [readFile_congr _ (congrArg Container.files (bootstrapSt_container env st))]
      exact Iff.rfl
  · rename_i hcc
    split
    · -- blocked on configuration apply
      refine recOut_congr env W im st _ ?_ ?_ ?_ ?_
      · simp only [pushKeySt_canConnect, gsk_container, configuringSt_container,
          bootstrapSt_container]
      · simp only [pushKeySt_store, gsk_main, configuringSt_store]
      · simp only [pushKeySt_store, gsk_isSome, configuringSt_store,
          bootstrapSt_isSome]
      · refine key_iff_aux env st _ ?_ ?_
        · simp only [resolveKey_status, resolveKey_pushKeySt, gsk_resolveKey,
            resolveKey_configuringSt]
        · rfl
    · split
      · split
        · -- blocked: signing key file not found
          refine recOut_congr env W im st _ ?_ ?_ ?_ ?_
          · simp only [applySt_canConnect, pushKeySt_canConnect, gsk_container,
              configuringSt_container, bootstrapSt_container]
          · simp only [applySt_store, pushKeySt_store, gsk_main, configuringSt_store]
          · simp only [applySt_store, pushKeySt_store, gsk_isSome, configuringSt_store,
              bootstrapSt_isSome]
          · refine key_iff_aux env st _ ?_ ?_
            · simp only [resolveKey_status, resolveKey_applySt, resolveKey_pushKeySt,
                gsk_resolveKey, resolveKey_configuringSt]
            · exact readFile_congr _ (applySt_files _ _ _)
        · -- signing key created (or skipped) then finish
          rename_i hcond x content hread
          rw [readFile_congr _ (applySt_files _ _ _),
            readFile_congr _ (congrArg Container.files
              (pushKeySt_container_of_none env hcond.2)),
            readFile_congr _ (congrArg Container.files ((gsk_container _).trans
              ((configuringSt_container _).trans (bootstrapSt_container env st))))]
            at hread
          refine recOut_congr env W im st _ ?_ ?_ ?_ ?_
          · simp only [fr_canConnect, ssk_container, applySt_canConnect,
              pushKeySt_canConnect, gsk_container, configuringSt_container,
              bootstrapSt_container]
          · simp only [fr_main, ssk_main, applySt_store, pushKeySt_store, gsk_main,
              configuringSt_store]
          · simp only [fr_store, ssk_isSome, applySt_store, pushKeySt_store,
              gsk_isSome, configuringSt_store, bootstrapSt_isSome]
          · constructor
            · rintro ⟨-, h2⟩
              rw [readFile_congr _ (fr_files _ _ _ _),
                readFile_congr _ (congrArg Container.files (ssk_container _ _ _)),
                readFile_congr _ (applySt_files _ _ _),
                readFile_congr _ (congrArg Container.files
                  (pushKeySt_container_of_none env hcond.2)),
                readFile_congr _ (congrArg Container.files ((gsk_container _).trans
                  ((configuringSt_container _).trans (bootstrapSt_container env st))))]
                at h2
              exact absurd (hread.symm.trans h2) (by simp)
            · rintro ⟨-, h2⟩
              exact absurd (hread.symm.trans h2) (by simp)
      · -- not main (or key already present): finish directly
        refine recOut_congr env W im st _ ?_ ?_ ?_ ?_
        · simp only [fr_canConnect, applySt_canConnect, pushKeySt_canConnect,
            gsk_container, configuringSt_container, bootstrapSt_container]
        · simp only [fr_main, applySt_store, pushKeySt_store, gsk_main,
            configuringSt_store]
        · simp only [fr_store, applySt_store, pushKeySt_store, gsk_isSome,
            configuringSt_store, bootstrapSt_isSome]
        · refine key_iff_aux env st _ ?_ ?_
          · simp only [resolveKey_fr, resolveKey_applySt, resolveKey_pushKeySt,
              gsk_resolveKey, resolveKey_configuringSt]
          · exact (readFile_congr _ (fr_files _ _ _ _)).trans
              (readFile_congr _ (applySt_files _ _ _))

theorem rec_mainAddr (env : Env) (W : Workload Config) (im : Option InstanceMap)
    (st : SysState Config) :
    getMainUnitAddress env ((reconcileT env W im st).1).store
      = getMainUnitAddress env st.store :=
  (gmua_congr env (rec_main env W im st)).trans (bootstrapSt_mainAddr env st)

theorem gsk_ok (env : Env) (st : SysState Config) (g : Option String × SysState Config)
    (h : getSigningKey env st = .ok g) :
    getSigningKeyT st = g := by
  cases hs : st.store with
  | none =>
    have hv : getSigningKey env st = .ok ((none : Option String), st) := by
      simp [getSigningKey, hs]
    rw [hv] at h
    have h' := Except.ok.inj h
    rw [← h']
    simp [getSigningKeyT, hs]
  | some s =>
    cases hr : s.secretSigningId with
    | none =>
      have hv : getSigningKey env st = .ok ((none : Option String), st) := by
        simp [getSigningKey, hs, hr]
      rw [hv] at h
      have h' := Except.ok.inj h
      rw [← h']
      simp [getSigningKeyT, hs, hr]
    | some sid =>
      cases hc : lookupSecret st.secrets sid with
      | some c =>
        have hv : getSigningKey env st = .ok (some c, st) := by
          simp [getSigningKey, hs, hr, hc]
        rw [hv] at h
        have h' := Except.ok.inj h
        rw [← h']
        simp [getSigningKeyT, hs, hr, hc]
      | none =>
        by_cases hld : env.leader = true
        · have hv : getSigningKey env st = .ok ((none : Option String),
              { st with store := some { s with secretSigningId := none } }) := by
            simp [getSigningKey, hs, hr, hc, hld]
          rw [hv] at h
          have h' := Except.ok.inj h
          rw [← h']
          simp [getSigningKeyT, hs, hr, hc]
        · have hv : getSigningKey env st = .error () := by
            simp [getSigningKey, hs, hr, hc, hld]
          rw [hv] at h
          cases h

theorem ssk_ok (env : Env) (key : String) (st st' : SysState Config)
    (h : setSigningKey env key st = .ok st') :
    setSigningKeyT env key st = st' := by
  cases hs : st.store with
  | none =>
    have hv : setSigningKey env key st = .ok st := by
      simp [setSigningKey, hs]
    rw [hv] at h
    have h' := Except.ok.inj h
    rw [← h']
    simp [setSigningKeyT, hs]
  | some s =>
    cases hr : s.secretSigningId with
    | none =>
      by_cases hld : env.leader = true
      · have hv : setSigningKey env key st = .ok { st with
            secrets := st.secrets ++ [(freshSecretId st.nextSecretId, key)],
            nextSecretId := st.nextSecretId + 1,
            store := some { s with secretSigningId := some (freshSecretId st.nextSecretId) } } := by
          simp [setSigningKey, hs, hr, hld]
        rw [hv] at h
        have h' := Except.ok.inj h
        rw [← h']
        simp [setSigningKeyT, hs, hr, hld]
      · have hv : setSigningKey env key st = .ok { st with store := some s } := by
          simp [setSigningKey, hs, hr, hld]
        rw [hv] at h
        have h' := Except.ok.inj h
        rw [← h']
        simp [setSigningKeyT, hs, hr, hld]
    | some sid =>
      cases hc : lookupSecret st.secrets sid with
      | some c =>
        by_cases hck : c = key
        · have hv : setSigningKey env key st = .ok { st with store := some s } := by
            simp [setSigningKey, hs, hr, hc, hck]
          rw [hv] at h
          have h' := Except.ok.inj h
          rw [← h']
          simp [setSigningKeyT, hs, hr, hc, hck]
        · by_cases hld : env.leader = true
          · have hv : setSigningKey env key st = .ok { st with
                secrets := st.secrets ++ [(freshSecretId st.nextSecretId, key)],
                nextSecretId := st.nextSecretId + 1,
                store := some { s with secretSigningId := some (freshSecretId st.nextSecretId) } } := by
              simp [setSigningKey, hs, hr, hc, hck, hld]
            rw [hv] at h
            have h' := Except.ok.inj h
            rw [← h']
            simp [setSigningKeyT, hs, hr, hc, hck, hld]
          · have hv : setSigningKey env key st = .ok { st with store := some s } := by
              simp [setSigningKey, hs, hr, hc, hck, hld]
            rw [hv] at h
            have h' := Except.ok.inj h
            rw [← h']
            simp [setSigningKeyT, hs, hr, hc, hck, hld]
      | none =>
        by_cases hld : env.leader = true
        · have hv : setSigningKey env key st = .ok { st with
              secrets := st.secrets ++ [(freshSecretId st.nextSecretId, key)],
              nextSecretId := st.nextSecretId + 1,
              store := some { s with
                secretSigningId := some (freshSecretId st.nextSecretId) } } := by
            simp [setSigningKey, hs, hr, hc, hld]
          rw [hv] at h
          have h' := Except.ok.inj h
          rw [← h']
          simp [setSigningKeyT, hs, hr, hc, hld]
        · have hv : setSigningKey env key st = .error () := by
            simp [setSigningKey, hs, hr, hc, hld]
          rw [hv] at h
          cases h

theorem rec_ok (env : Env) (W : Workload Config) (im : Option InstanceMap)
    (st : SysState Config) (p : SysState Config × Option Config)
    (h : reconcile env W im st = .ok p) :
    reconcileT env W im st = p := by
  unfold reconcile at h
  unfold reconcileT
  dsimp only at h ⊢
  by_cases hcc : (bootstrapSt env st).container.canConnect = false
  · rw [if_pos hcc] at h ⊢
    exact Except.ok.inj h
  · rw [if_neg hcc] at h ⊢
    cases hg : getSigningKey env (configuringSt (bootstrapSt env st)) with
    | error e => rw [hg] at h; cases h
    | ok g =>
      rw [hg] at h
      dsimp only at h
      rw [gsk_ok env (configuringSt (bootstrapSt env st)) g hg]
      cases ho : W.applyOutcome (W.desired im (isMain env (pushKeySt env g).store)
          (getUnitNumber env.selfName)) with
      | some e =>
        rw [ho] at h
        exact Except.ok.inj h
      | none =>
        rw [ho] at h
        dsimp only at h ⊢
        by_cases hm : isMain env (applySt W (W.desired im (isMain env (pushKeySt env g).store)
            (getUnitNumber env.selfName)) (pushKeySt env g)).store = true ∧ g.1 = none
        · rw [if_pos hm] at h ⊢
          cases hrf : readFile (signingKeyPath env)
              (applySt W (W.desired im (isMain env (pushKeySt env g).store)
                (getUnitNumber env.selfName)) (pushKeySt env g)).container with
          | none =>
            rw [hrf] at h
            exact Except.ok.inj h
          | some content =>
            rw [hrf] at h
            dsimp only at h ⊢
            cases hss : setSigningKey env (rstrip content)
                (applySt W (W.desired im (isMain env (pushKeySt env g).store)
                  (getUnitNumber env.selfName)) (pushKeySt env g)) with
            | error e => rw [hss] at h; cases h
            | ok st5 =>
              rw [hss] at h
              dsimp only at h
              rw [ssk_ok env (rstrip content) _ st5 hss]
              exact Except.ok.inj h
        · rw [if_neg hm] at h ⊢
          exact Except.ok.inj h

theorem ssk_nonleader_ok (env : Env) (key : String) (st st' : SysState Config)
    (hld : env.leader = false) (h : setSigningKey env key st = .ok st') :
    st' = st := by
  have hld' : ¬(env.leader = true) := by simp [hld]
  cases hs : st.store with
  | none =>
    have hv : setSigningKey env key st = .ok st := by
      simp [setSigningKey, hs]
    rw [hv] at h
    exact (Except.ok.inj h).symm
  | some s =>
    cases hr : s.secretSigningId with
    | none =>
      have hv : setSigningKey env key st = .ok { st with store := some s } := by
        simp [setSigningKey, hs, hr, hld']
      rw [hv] at h
      have h' := Except.ok.inj h
      rw [← h', ← hs]
    | some sid =>
      cases hc : lookupSecret st.secrets sid with
      | some c =>
        by_cases hck : c = key
        · have hv : setSigningKey env key st = .ok { st with store := some s } := by
            simp [setSigningKey, hs, hr, hc, hck]
          rw [hv] at h
          have h' := Except.ok.inj h
          rw [← h', ← hs]
        · have hv : setSigningKey env key st = .ok { st with store := some s } := by
            simp [setSigningKey, hs, hr, hc, hck, hld']
          rw [hv] at h
          have h' := Except.ok.inj h
          rw [← h', ← hs]
      | none =>
        have hv : setSigningKey env key st = .error () := by
          simp [setSigningKey, hs, hr, hc, hld']
        rw [hv] at h
        cases h

theorem ssk_error_iff (env : Env) (key : String) (st : SysState Config)
    (hld : env.leader = false) :
    setSigningKey env key st = .error () ↔
      ∃ sid, storeRef st = some sid ∧ lookupSecret st.secrets sid = none := by
  have hld' : ¬(env.leader = true) := by simp [hld]
  cases hs : st.store with
  | none =>
    have hv : setSigningKey env key st = .ok st := by
      simp [setSigningKey, hs]
    rw [hv]
    simp [storeRef, hs]
  | some s =>
    cases hr : s.secretSigningId with
    | none =>
      have hv : setSigningKey env key st = .ok { st with store := some s } := by
        simp [setSigningKey, hs, hr, hld']
      rw [hv]
      simp [storeRef, hs, hr]
    | some sid =>
      cases hc : lookupSecret st.secrets sid with
      | some c =>
        by_cases hck : c = key
        · have hv : setSigningKey env key st = .ok { st with store := some s } := by
            simp [setSigningKey, hs, hr, hc, hck]
          rw [hv]
          simp [storeRef, hs, hr, hc]
        · have hv : setSigningKey env key st = .ok { st with store := some s } := by
            simp [setSigningKey, hs, hr, hc, hck, hld']
          rw [hv]
          simp [storeRef, hs, hr, hc]
      | none =>
        have hv : setSigningKey env key st = .error () := by
          simp [setSigningKey, hs, hr, hc, hld']
        rw [hv]
        exact iff_of_true rfl ⟨sid, by simp [storeRef, hs, hr], hc⟩

theorem invoke_bim_pres (env : Env) (W : Workload Config) (im : Option InstanceMap)
    (st : SysState Config) :
    buildInstanceMap env ((reconcileT env W im st).1).store
      = buildInstanceMap env st.store :=
  bim_congr env (rec_isSome env W im st) (rec_mainAddr env W im st)

theorem bootstrap_noop_main (env : Env) {st : SysState Config} {m : String}
    (h : getMainUnit st.store = some m) :
    getMainUnit (bootstrapSt env st).store = some m := by
  rw [bootstrapSt_main, if_neg (by simp [h]), h]

theorem setMainUnit_isSome (u : String) (s : Option PeerStore) :
    (setMainUnit u s).isSome = s.isSome := by
  cases s <;> rfl

theorem onLeaderElected_main (env : Env) (W : Workload Config)
    (st st1 : SysState Config) (a1 : Option Config) (hld : env.leader = true)
    (hsome : st.store.isSome = true)
    (h : onLeaderElected env W st = .ok (st1, a1)) :
    getMainUnit st1.store = some env.selfName := by
  unfold onLeaderElected at h
  cases hb : buildInstanceMap env st.store with
  | error e => rw [hb] at h; simp at h
  | ok im =>
    have hv : onLeaderElected env W st = reconcile env W im
        { st with store := setMainUnit env.selfName st.store } := by
      unfold onLeaderElected
      rw [hb]
      simp [hld]
    unfold onLeaderElected at hv
    rw [hb] at hv
    rw [hb] at h
    rw [hv] at h
    have h' := rec_ok env W im _ _ h
    have hst : st1 = (reconcileT env W im
        { st with store := setMainUnit env.selfName st.store }).1 := by rw [h']
    rw [hst, rec_main]
    apply bootstrap_noop_main
    show getMainUnit (setMainUnit env.selfName st.store) = some env.selfName
    cases hss : st.store with
    | none => rw [hss] at hsome; cases hsome
    | some s => simp [setMainUnit, getMainUnit]

theorem onLeaderElected_isSome (env : Env) (W : Workload Config)
    (st st1 : SysState Config) (a1 : Option Config)
    (h : onLeaderElected env W st = .ok (st1, a1)) :
    st1.store.isSome = st.store.isSome := by
  unfold onLeaderElected at h
  cases hb : buildInstanceMap env st.store with
  | error e => rw [hb] at h; simp at h
  | ok im =>
    by_cases hld : env.leader = true
    · have hv : onLeaderElected env W st = reconcile env W im
          { st with store := setMainUnit env.selfName st.store } := by
        unfold onLeaderElected
        rw [hb]
        simp [hld]
      unfold onLeaderElected at hv
      rw [hb] at hv
      rw [hb] at h
      rw [hv] at h
      have h' := rec_ok env W im _ _ h
      have hst : st1 = (reconcileT env W im
          { st with store := setMainUnit env.selfName st.store }).1 := by rw [h']
      rw [hst, rec_isSome]
      exact setMainUnit_isSome env.selfName st.store
    · have hv : onLeaderElected env W st = .ok (st, none) := by
        unfold onLeaderElected
        rw [hb]
        simp [hld]
      unfold onLeaderElected at hv
      rw [hb] at hv
      rw [hb] at h
      rw [hv] at h
      have h' := Except.ok.inj h
      rw [← (Prod.mk.inj h').1]

theorem rec_resolve_pres (env : Env) (W : Workload Config) (im : Option InstanceMap)
    (st : SysState Config) (k : String) (h : resolveKey st = some k) :
    (reconcileT env W im st).1.secrets = st.secrets ∧
    resolveKey ((reconcileT env W im st).1) = some k := by
  have hb : resolveKey (configuringSt (bootstrapSt env st)) = some k := by
    rw [resolveKey_configuringSt, bootstrapSt_resolveKey]; exact h
  have hgk := gsk_of_resolve_some hb
  unfold reconcileT
  dsimp only
  split
  · exact ⟨bootstrapSt_secrets env st, (bootstrapSt_resolveKey env st).trans h⟩
  · rw [hgk]
    dsimp only
    split
    · constructor
      · exact bootstrapSt_secrets env st
      · exact hb
    · split
      · rename_i hcond
        exact absurd hcond.2 (by simp)
      · constructor
        · rw [fr_secrets, applySt_secrets, pushKeySt_secrets]
          exact bootstrapSt_secrets env st
        · rw [resolveKey_fr, resolveKey_applySt, resolveKey_pushKeySt]
          exact hb

theorem worker_key_ne_main (s : String) : ("worker" ++ s) ≠ "main" := by
  intro h
  have := congrArg String.data h
  simp [String.data_append] at this

theorem worker_key_ne_fed (s : String) : ("worker" ++ s) ≠ "federationsender1" := by
  intro h
  have := congrArg String.data h
  simp [String.data_append] at this

theorem workerLoop_ok (mainAddr : String) :
    ∀ (l : List String) (acc : InstanceMap),
    (∀ a ∈ l, a ≠ mainAddr → extractId a ≠ none) →
    (∀ a ∈ l, a ≠ mainAddr → ∀ p ∈ acc, p.1 ≠ workerKey a) →
    ((l.filter (fun a => a ≠ mainAddr)).map workerKey).Nodup →
    workerLoop mainAddr acc l =
      .ok (acc ++ (l.filter (fun a => a ≠ mainAddr)).map
        (fun a => (workerKey a, (a, 8034)))) := by
  intro l
  induction l with
  | nil => intro acc _ _ _; simp [workerLoop]
  | cons x rest ih =>
    intro acc hid hfresh hnodup
    unfold workerLoop
    by_cases hx : x = mainAddr
    · rw [if_pos hx]
      rw [show (x :: rest).filter (fun a => a ≠ mainAddr)
          = rest.filter (fun a => a ≠ mainAddr) from by simp [hx]]
      exact ih acc (fun a ha hne => hid a (by simp [ha]) hne)
        (fun a ha hne => hfresh a (by simp [ha]) hne)
        (by
          rw [show (x :: rest).filter (fun a => a ≠ mainAddr)
            = rest.filter (fun a => a ≠ mainAddr) from by simp [hx]] at hnodup
          exact hnodup)
    · rw [if_neg hx]
      have hfilter : (x :: rest).filter (fun a => a ≠ mainAddr)
          = x :: rest.filter (fun a => a ≠ mainAddr) := by simp [hx]
      rw [hfilter] at hnodup
      simp only [List.map_cons, List.nodup_cons] at hnodup
      obtain ⟨hxnotin, hnodup'⟩ := hnodup
      cases hex : extractId x with
      | none => exact absurd hex (hid x (by simp) hx)
      | some n =>
        have hkey : workerKey x = "worker" ++ n := by simp [workerKey, hex]
        have hfr : acc.any (fun p => p.1 = "worker" ++ n) = false := by
          rw [List.any_eq_false]
          intro p hp
          simp only [decide_eq_true_eq]
          have := hfresh x (by simp) hx p hp
          rw [hkey] at this
          exact this
        show workerLoop mainAddr (dictInsert acc ("worker" ++ n) (x, 8034)) rest
          = Except.ok (acc ++ ((x :: rest).filter (fun a => a ≠ mainAddr)).map
              (fun a => (workerKey a, (a, 8034))))
        rw [show dictInsert acc ("worker" ++ n) (x, 8034)
            = acc ++ [(("worker" ++ n : String), ((x : String), (8034 : Nat)))] from by
          unfold dictInsert; rw [hfr]; simp]
        rw [ih (acc ++ [("worker" ++ n, (x, 8034))])
          (fun a ha hne => hid a (by simp [ha]) hne)
          ?_ hnodup']
        · rw [hfilter]
          simp only [List.map_cons, List.append_assoc, List.singleton_append, hkey]
        · intro a ha hne p hp
          rcases List.mem_append.mp hp with hp | hp
          · exact hfresh a (by simp [ha]) hne p hp
          · have hpeq : p.1 = "worker" ++ n := by
              simp at hp
              rw [hp]
            rw [hpeq, ← hkey]
            intro hcontra
            apply hxnotin
            rw [hcontra]
            exact List.mem_map_of_mem workerKey (List.mem_filter.mpr ⟨ha, by simp [hne]⟩)

end Lemmas

/-- C1: for a peer group of one unit `instance_map` returns the empty
topology (`None`, modelled as `.ok none`); for a group of K>1 units
whose address list contains the main address exactly once, every other
address having an extractable numeric id with pairwise-distinct worker
keys, the result has exactly K+1 entries in insertion order: `main`
and `federationsender1` (both at the main address, ports 8035/8034),
then one `worker<id>` per non-main address in address-list order. -/
theorem C1_instance_map_shape (env : Env) (store : Option PeerStore)
    (hcount : ((peerAddresses env store).filter
        (fun a => a ≠ getMainUnitAddress env store)).length + 1
      = (peerAddresses env store).length)
    (hid : ∀ a ∈ peerAddresses env store,
      a ≠ getMainUnitAddress env store → extractId a ≠ none)
    (hnodup : (((peerAddresses env store).filter
        (fun a => a ≠ getMainUnitAddress env store)).map workerKey).Nodup) :
    (env.plannedUnits = 1 → buildInstanceMap env store = .ok none) ∧
    (env.plannedUnits ≠ 1 →
      buildInstanceMap env store = .ok (some (
        ("main", (getMainUnitAddress env store, 8035)) ::
        ("federationsender1", (getMainUnitAddress env store, 8034)) ::
        ((peerAddresses env store).filter
          (fun a => a ≠ getMainUnitAddress env store)).map
            (fun a => (workerKey a, (a, 8034))))) ∧
      (("main", (getMainUnitAddress env store, 8035)) ::
        ("federationsender1", (getMainUnitAddress env store, 8034)) ::
        ((peerAddresses env store).filter
          (fun a => a ≠ getMainUnitAddress env store)).map
            (fun a => (workerKey a, (a, 8034)))).length
        = (peerAddresses env store).length + 1) := by
  have hfresh : ∀ a ∈ peerAddresses env store, a ≠ getMainUnitAddress env store →
      ∀ p ∈ ([("main", (getMainUnitAddress env store, 8035)),
        ("federationsender1", (getMainUnitAddress env store, 8034))] : InstanceMap),
      p.1 ≠ workerKey a := by
    intro a _ _ p hp
    have hw1 : workerKey a ≠ "main" := worker_key_ne_main _
    have hw2 : workerKey a ≠ "federationsender1" := worker_key_ne_fed _
    rcases List.mem_cons.mp hp with h | h
    · rw [h]; exact hw1.symm
    · rcases List.mem_cons.mp h with h | h
      · rw [h]; exact hw2.symm
      · cases h
  have hloop := workerLoop_ok (getMainUnitAddress env store)
    (peerAddresses env store)
    [("main", (getMainUnitAddress env store, 8035)),
     ("federationsender1", (getMainUnitAddress env store, 8034))]
    hid hfresh hnodup
  constructor
  · intro h1
    unfold buildInstanceMap
    rw [if_pos h1]
  · intro h1
    constructor
    · unfold buildInstanceMap
      rw [if_neg h1]
      dsimp only
      rw [hloop]
      exact rfl
    · simp only [List.length_cons, List.length_map]
      omega

/-- C1 witness: the spec's worked example — three units `unit/0` (main),
`unit/1`, `unit/2` of app `app`; the hypotheses hold and the topology
is `main`, `federationsender1`, `worker1`, `worker2`. -/
theorem C1_instance_map_shape_witness :
    (((peerAddresses c1Env c1Store).filter
        (fun a => a ≠ getMainUnitAddress c1Env c1Store)).length + 1
      = (peerAddresses c1Env c1Store).length) ∧
    buildInstanceMap c1Env c1Store = .ok (some
      [("main", ("unit-0.app-endpoints", 8035)),
       ("federationsender1", ("unit-0.app-endpoints", 8034)),
       ("worker1", ("unit-1.app-endpoints", 8034)),
       ("worker2", ("unit-2.app-endpoints", 8034))]) ∧
    ((c1Env.plannedUnits = 1 → buildInstanceMap c1Env c1Store = .ok none) ∧
     (c1Env.plannedUnits ≠ 1 →
      buildInstanceMap c1Env c1Store = .ok (some (
        ("main", (getMainUnitAddress c1Env c1Store, 8035)) ::
        ("federationsender1", (getMainUnitAddress c1Env c1Store, 8034)) ::
        ((peerAddresses c1Env c1Store).filter
          (fun a => a ≠ getMainUnitAddress c1Env c1Store)).map
            (fun a => (workerKey a, (a, 8034))))) ∧
      (("main", (getMainUnitAddress c1Env c1Store, 8035)) ::
        ("federationsender1", (getMainUnitAddress c1Env c1Store, 8034)) ::
        ((peerAddresses c1Env c1Store).filter
          (fun a => a ≠ getMainUnitAddress c1Env c1Store)).map
            (fun a => (workerKey a, (a, 8034)))).length
        = (peerAddresses c1Env c1Store).length + 1)) :=
  ⟨by decide, by decide,
   C1_instance_map_shape c1Env c1Store (by decide) (by decide) (by decide)⟩

/-- C2 (amended): names of the form `app/N` and `app-N[.suffix]` parse
to `N`; but a name with no separators (hence in particular a digit-free
name such as `app`) is returned unchanged — `get_unit_number` is total
and never raises. -/
theorem C2_unit_number_parsing :
    (∀ app N : String, '.' ∉ app.data → (∀ c ∈ N.data, c.isDigit) →
      getUnitNumber (app ++ "/" ++ N) = N) ∧
    (∀ app N suffix : String, '.' ∉ app.data → '/' ∉ app.data →
      (∀ c ∈ N.data, c.isDigit) →
      (suffix.data = [] ∨ ∃ rest, suffix.data = '.' :: rest) →
      getUnitNumber (app ++ "-" ++ N ++ suffix) = N) ∧
    (∀ s : String, '/' ∉ s.data → '-' ∉ s.data → '.' ∉ s.data →
      getUnitNumber s = s) :=
  ⟨getUnitNumber_slash, getUnitNumber_dash, getUnitNumber_no_sep⟩

/-- C2 witness: `synapse/0 ↦ 0`, `synapse-0.synapse-endpoints ↦ 0`,
and the digit-free `app` comes back unchanged. -/
theorem C2_unit_number_parsing_witness :
    getUnitNumber ("synapse" ++ "/" ++ "0") = "0" ∧
    getUnitNumber ("synapse" ++ "-" ++ "0" ++ ".synapse-endpoints") = "0" ∧
    getUnitNumber "app" = "app" :=
  ⟨C2_unit_number_parsing.1 "synapse" "0" (by decide) (by decide),
   C2_unit_number_parsing.2.1 "synapse" "0" ".synapse-endpoints" (by decide)
     (by decide) (by decide) (Or.inr ⟨"synapse-endpoints".data, rfl⟩),
   C2_unit_number_parsing.2.2 "app" (by decide) (by decide) (by decide)⟩

/-- C2 counterexample: the name `app` contains no digits, yet
`get_unit_number` returns the value `"app"` instead of failing with a
MalformedIdentity error — the function has no failure path at all. -/
theorem C2_no_digit_counterexample :
    "app".data.all (fun c => !c.isDigit) = true ∧ getUnitNumber "app" = "app" := by
  decide

/-- C3 (amended): an address in the peer-address list that differs from
the main address and has no extractable numeric id makes topology
building raise, aborting the whole reconciliation invocation with no
topology produced; the main address itself, however, is skipped before
id extraction is required. -/
theorem C3_bad_worker_address_fatal {Config : Type} (env : Env) (W : Workload Config)
    (st : SysState Config) (a : String)
    (ha : a ∈ peerAddresses env st.store)
    (hmain : a ≠ getMainUnitAddress env st.store)
    (hid : extractId a = none) (hsz : env.plannedUnits ≠ 1) :
    buildInstanceMap env st.store = .error () ∧ invoke env W st = .error () := by
  have hloop : ∀ (l : List String) (acc : InstanceMap), a ∈ l →
      workerLoop (getMainUnitAddress env st.store) acc l = .error () := by
    intro l
    induction l with
    | nil => intro acc h; cases h
    | cons x rest ih =>
      intro acc hmem
      unfold workerLoop
      by_cases hx : x = getMainUnitAddress env st.store
      · rw [if_pos hx]
        apply ih
        rcases List.mem_cons.mp hmem with h1 | h1
        · exact absurd (h1.trans hx) hmain
        · exact h1
      · rw [if_neg hx]
        rcases List.mem_cons.mp hmem with h1 | h1
        · rw [← h1, hid]
        · cases hx2 : extractId x with
          | none => rfl
          | some n => exact ih _ h1
  have hb : buildInstanceMap env st.store = .error () := by
    unfold buildInstanceMap
    rw [if_neg hsz]
    dsimp only
    rw [hloop _ _ ha]
  refine ⟨hb, ?_⟩
  unfold invoke
  rw [hb]

/-- C3 witness: peer `badpeer` gives address `badpeer.app-endpoints`
with no `-<digits>` run while the main address is `app-0.app-endpoints`;
the reconciliation aborts. -/
theorem C3_bad_worker_address_fatal_witness :
    ("badpeer.app-endpoints" ∈ peerAddresses c3wEnv c3wSt.store ∧
     "badpeer.app-endpoints" ≠ getMainUnitAddress c3wEnv c3wSt.store ∧
     extractId "badpeer.app-endpoints" = none ∧
     c3wEnv.plannedUnits ≠ 1) ∧
    (buildInstanceMap c3wEnv c3wSt.store = .error () ∧
     invoke c3wEnv unitW c3wSt = .error ()) :=
  ⟨by decide,
   C3_bad_worker_address_fatal c3wEnv unitW c3wSt "badpeer.app-endpoints"
     (by decide) (by decide) (by decide) (by decide)⟩

/-- C3 counterexample: when the address with no extractable id is the
*main* address itself, `instance_map` silently skips it and produces a
topology — the claim that every unextractable address aborts the
reconciliation is false as stated. -/
theorem C3_main_address_skipped_counterexample :
    "badpeer.app-endpoints" ∈ peerAddresses c3Env c3Store ∧
    extractId "badpeer.app-endpoints" = none ∧
    buildInstanceMap c3Env c3Store =
      .ok (some [("main", ("badpeer.app-endpoints", 8035)),
        ("federationsender1", ("badpeer.app-endpoints", 8034)),
        ("worker0", ("app-0.app-endpoints", 8034))]) := by
  decide

/-- C8: a Blocked unit status is sticky — when `_set_unit_status` runs
with the unit already Blocked it returns the state unchanged, never
overwriting the status with Active or Maintenance. -/
theorem C8_blocked_status_sticky {Config : Type} (st : SysState Config) (r : String)
    (h : st.status = Status.blocked r) :
    setUnitStatus st = st ∧ (setUnitStatus st).status = Status.blocked r := by
  have heq : setUnitStatus st = st := by
    unfold setUnitStatus
    rw [h]
  exact ⟨heq, by rw [heq, h]⟩

/-- C8 witness: a concrete Blocked state survives the final status
recomputation untouched. -/
theorem C8_blocked_status_sticky_witness :
    c8St.status = Status.blocked "config error" ∧
    (setUnitStatus c8St = c8St ∧
     (setUnitStatus c8St).status = Status.blocked "config error") :=
  ⟨by decide, C8_blocked_status_sticky c8St "config error" (by decide)⟩

/-- C9: when no main unit is recorded (no peer relation, or the key is
absent), `get_main_unit_address` falls back to the observer's own name
and returns its canonical address instead of failing; consequently two
observers with distinct (slash-normalised) names compute distinct main
endpoints before the designation propagates. -/
theorem C9_main_address_fallback (env env' : Env) (store store' : Option PeerStore)
    (h : getMainUnit store = none) (h' : getMainUnit store' = none)
    (happ : env'.appName = env.appName)
    (hname : slashToDash env'.selfName ≠ slashToDash env.selfName) :
    getMainUnitAddress env store = unitAddress env.selfName env.appName ∧
    getMainUnitAddress env' store' ≠ getMainUnitAddress env store := by
  constructor
  · unfold getMainUnitAddress
    rw [h]
    rfl
  · unfold getMainUnitAddress
    rw [h, h', happ]
    intro heq
    apply hname
    have hd := congrArg String.data heq
    unfold unitAddress at hd
    simp only [String.data_append, List.append_assoc] at hd
    have hcancel := List.append_left_injective _ hd
    exact String.ext hcancel

/-- C9 witness: units `app/0` and `app/1` with no recorded main fall
back to their own canonical addresses, which differ. -/
theorem C9_main_address_fallback_witness :
    (getMainUnit (none : Option PeerStore) = none ∧
     c9EnvB.appName = c9EnvA.appName ∧
     slashToDash c9EnvB.selfName ≠ slashToDash c9EnvA.selfName) ∧
    (getMainUnitAddress c9EnvA none = unitAddress c9EnvA.selfName c9EnvA.appName ∧
     getMainUnitAddress c9EnvB none ≠ getMainUnitAddress c9EnvA none) :=
  ⟨by decide,
   C9_main_address_fallback c9EnvA c9EnvB none none (by decide) (by decide)
     (by decide) (by decide)⟩

/-- C4 (amended): handling a peer-departed event for unit D sets the
main designation to the observer when D is the recorded main and the
observer holds leadership; otherwise the designation is unchanged —
except that when no main is recorded at all and the observer is leader
(and D is not the observer itself), the reconcile call that ends the handler
bootstraps the designation to the observer. -/
theorem C4_departed_main_designation {Config : Type} (env : Env) (W : Workload Config)
    (D : String) (st st' : SysState Config) (a : Option Config)
    (h : onRelationDeparted env W D st = .ok (st', a)) :
    ((getMainUnit st.store = some D ∧ env.leader = true) →
      getMainUnit st'.store = some env.selfName) ∧
    (¬(getMainUnit st.store = some D ∧ env.leader = true) →
      (getMainUnit st'.store = getMainUnit st.store ∨
        (getMainUnit st.store = none ∧ env.leader = true ∧
          st.store.isSome = true ∧ D ≠ env.selfName ∧
          getMainUnit st'.store = some env.selfName))) := by
  unfold onRelationDeparted at h
  cases hb : buildInstanceMap env st.store with
  | error e => rw [hb] at h; simp at h
  | ok im =>
    rw [hb] at h
    dsimp only at h
    by_cases hD : D = env.selfName
    · rw [if_pos hD] at h
      have hp := Except.ok.inj h
      have hst : st' = st := ((Prod.mk.inj hp).1).symm
      constructor
      · rintro ⟨hm, -⟩
        rw [hst, hm, hD]
      · intro _
        left
        rw [hst]
    · rw [if_neg hD] at h
      by_cases hMD : getMainUnit st.store = some D ∧ env.leader = true
      · rw [if_pos hMD] at h
        have hp := rec_ok env W im _ _ h
        have hst : st' = (reconcileT env W im
            { st with store := setMainUnit env.selfName st.store }).1 := by rw [hp]
        constructor
        · intro _
          rw [hst, rec_main]
          apply bootstrap_noop_main
          show getMainUnit (setMainUnit env.selfName st.store) = some env.selfName
          cases hss : st.store with
          | none =>
            rw [hss] at hMD
            exact absurd hMD.1 (by simp [getMainUnit])
          | some s => simp [setMainUnit, getMainUnit]
        · intro hn
          exact absurd hMD hn
      · rw [if_neg hMD] at h
        have hp := rec_ok env W im _ _ h
        have hst : st' = (reconcileT env W im st).1 := by rw [hp]
        constructor
        · intro hMD'
          exact absurd hMD' hMD
        · intro _
          rw [hst, rec_main, bootstrapSt_main]
          by_cases hcond : getMainUnit st.store = none ∧ env.leader = true ∧
              st.store.isSome = true
          · right
            rw [if_pos hcond]
            exact ⟨hcond.1, hcond.2.1, hcond.2.2, hD, rfl⟩
          · left
            rw [if_neg hcond]

/-- C4 witness: the recorded main `app/1` departs while leader `app/0`
observes; the designation moves to `app/0`. -/
theorem C4_departed_main_designation_witness :
    onRelationDeparted c4Env unitW "app/1" c4wSt = .ok (c4wRun, none) ∧
    (((getMainUnit c4wSt.store = some "app/1" ∧ c4Env.leader = true) →
      getMainUnit c4wRun.store = some c4Env.selfName) ∧
     (¬(getMainUnit c4wSt.store = some "app/1" ∧ c4Env.leader = true) →
      (getMainUnit c4wRun.store = getMainUnit c4wSt.store ∨
        (getMainUnit c4wSt.store = none ∧ c4Env.leader = true ∧
          c4wSt.store.isSome = true ∧ "app/1" ≠ c4Env.selfName ∧
          getMainUnit c4wRun.store = some c4Env.selfName)))) :=
  ⟨by decide,
   C4_departed_main_designation c4Env unitW "app/1" c4wSt c4wRun none (by decide)⟩

/-- C4 counterexample: unit `app/1` departs while no main is recorded
and the observer `app/0` is leader; `app/1` is not the recorded main,
yet after the handler the designation is `app/0` — it was not left
unchanged, refuting the claim's "in every other case" clause. -/
theorem C4_bootstrap_counterexample :
    onRelationDeparted c4Env unitW "app/1" c4St = .ok (c4Run, none) ∧
    getMainUnit c4St.store = none ∧
    getMainUnit c4Run.store = some "app/0" := by
  decide

/-- C5: a leader-elected event on a leader U (with the peer relation
present, so the write is effective) unconditionally records U as main,
overwriting any prior designation; handling the event again leaves the
designation at U (idempotent). -/
theorem C5_leader_elected_sets_main {Config : Type} (env : Env) (W : Workload Config)
    (st st1 : SysState Config) (a1 : Option Config) (hld : env.leader = true)
    (hrel : st.store.isSome = true) (h1 : onLeaderElected env W st = .ok (st1, a1)) :
    getMainUnit st1.store = some env.selfName ∧
    (∀ (st2 : SysState Config) (a2 : Option Config),
      onLeaderElected env W st1 = .ok (st2, a2) →
      getMainUnit st2.store = some env.selfName) :=
  ⟨onLeaderElected_main env W st st1 a1 hld hrel h1,
   fun st2 a2 h2 => onLeaderElected_main env W st1 st2 a2 hld
     ((onLeaderElected_isSome env W st st1 a1 h1).trans hrel) h2⟩

/-- C5 witness: leader `app/0` fires leader-elected while the recorded
main is `app/1`; afterwards (and after firing again) the main is
`app/0`. -/
theorem C5_leader_elected_sets_main_witness :
    (c4Env.leader = true ∧ c5St.store.isSome = true ∧
     onLeaderElected c4Env unitW c5St = .ok (c5Run1, none)) ∧
    (getMainUnit c5Run1.store = some c4Env.selfName ∧
     (∀ (st2 : SysState Unit) (a2 : Option Unit),
       onLeaderElected c4Env unitW c5Run1 = .ok (st2, a2) →
       getMainUnit st2.store = some c4Env.selfName)) :=
  ⟨by decide,
   C5_leader_elected_sets_main c4Env unitW c5St c5Run1 none (by decide) (by decide)
     (by decide)⟩

/-- C6: with a resolvable signing-key reference already published,
running the reconcile sequence twice creates zero new secrets; moreover
`set_signing_key` only creates when the caller is leader and the key
differs from the currently resolvable one, and a reconcile invocation
only ever grows the secret list when the observer is the main unit. -/
theorem C6_signing_key_created_once {Config : Type} (env : Env) (W : Workload Config)
    (st st1 st2 : SysState Config) (a1 a2 : Option Config) (sid k : String)
    (href : storeRef st = some sid) (hres : lookupSecret st.secrets sid = some k)
    (h1 : invoke env W st = .ok (st1, a1)) (h2 : invoke env W st1 = .ok (st2, a2)) :
    st1.secrets = st.secrets ∧ st2.secrets = st.secrets ∧
    (∀ (stX : SysState Config) (kX : String),
      (setSigningKeyT env kX stX).secrets ≠ stX.secrets →
      env.leader = true ∧ resolveKey stX ≠ some kX) ∧
    (∀ (stX stX' : SysState Config) (kX : String),
      setSigningKey env kX stX = .ok stX' → stX'.secrets ≠ stX.secrets →
      env.leader = true ∧ resolveKey stX ≠ some kX) ∧
    (∀ (stX stY : SysState Config) (aX : Option Config),
      invoke env W stX = .ok (stY, aX) → stY.secrets ≠ stX.secrets →
      isMain env (bootstrapSt env stX).store = true) := by
  have hresolve : resolveKey st = some k := by
    unfold resolveKey
    rw [href]
    exact hres
  unfold invoke at h1 h2
  cases hb : buildInstanceMap env st.store with
  | error e => rw [hb] at h1; simp at h1
  | ok im =>
    rw [hb] at h1
    have hp1 := rec_ok env W im st _ h1
    have hst1 : st1 = (reconcileT env W im st).1 := by rw [hp1]
    have hpres := rec_resolve_pres env W im st k hresolve
    have hsec1 : st1.secrets = st.secrets := by rw [hst1]; exact hpres.1
    have hres1 : resolveKey st1 = some k := by rw [hst1]; exact hpres.2
    refine ⟨hsec1, ?_, ?_, ?_, ?_⟩
    · cases hb2 : buildInstanceMap env st1.store with
      | error e => rw [hb2] at h2; simp at h2
      | ok im2 =>
        rw [hb2] at h2
        have hp2 := rec_ok env W im2 st1 _ h2
        have hst2 : st2 = (reconcileT env W im2 st1).1 := by rw [hp2]
        have hpres2 := rec_resolve_pres env W im2 st1 k hres1
        rw [hst2, hpres2.1]
        exact hsec1
    · intro stX kX hne
      exact ssk_secrets_change env kX stX hne
    · intro stX stX' kX hok hne
      apply ssk_secrets_change env kX stX
      rw [ssk_ok env kX stX stX' hok]
      exact hne
    · intro stX stY aX hX hne
      unfold invoke at hX
      cases hbX : buildInstanceMap env stX.store with
      | error e => rw [hbX] at hX; simp at hX
      | ok imX =>
        rw [hbX] at hX
        have hpX := rec_ok env W imX stX _ hX
        have hstY : stY = (reconcileT env W imX stX).1 := by rw [hpX]
        apply rec_secrets_change env W imX stX
        rw [← hstY]
        exact hne

/-- C6 witness: a published resolvable reference `secret:0 ↦ k`; two
consecutive reconcile invocations leave the secret list untouched. -/
theorem C6_signing_key_created_once_witness :
    (storeRef c6St = some "secret:0" ∧
     lookupSecret c6St.secrets "secret:0" = some "k" ∧
     invoke c7Env unitW c6St = .ok (c6Run1, some ()) ∧
     invoke c7Env unitW c6Run1 = .ok (c6Run2, some ())) ∧
    (c6Run1.secrets = c6St.secrets ∧ c6Run2.secrets = c6St.secrets ∧
     (∀ (stX : SysState Unit) (kX : String),
       (setSigningKeyT c7Env kX stX).secrets ≠ stX.secrets →
       c7Env.leader = true ∧ resolveKey stX ≠ some kX) ∧
     (∀ (stX stX' : SysState Unit) (kX : String),
       setSigningKey c7Env kX stX = .ok stX' → stX'.secrets ≠ stX.secrets →
       c7Env.leader = true ∧ resolveKey stX ≠ some kX) ∧
     (∀ (stX stY : SysState Unit) (aX : Option Unit),
       invoke c7Env unitW stX = .ok (stY, aX) → stY.secrets ≠ stX.secrets →
       isMain c7Env (bootstrapSt c7Env stX).store = true)) :=
  ⟨⟨by decide, by decide, by decide, by decide⟩,
   C6_signing_key_created_once c7Env unitW c6St c6Run1 c6Run2 (some ()) (some ())
     "secret:0" "k" (by decide) (by decide) (by decide) (by decide)⟩

/-- C7 (amended): two consecutive reconcile invocations with unchanged
external state apply the identical configuration and report the
identical status; the second run's state, however, is not always
identical to the first run's (see the counterexample: the stripped
signing key is re-pushed over the workload's file). -/
theorem C7_reconcile_idempotent_outputs {Config : Type} (env : Env) (W : Workload Config)
    (st st1 st2 : SysState Config) (a1 a2 : Option Config)
    (h1 : invoke env W st = .ok (st1, a1)) (h2 : invoke env W st1 = .ok (st2, a2)) :
    a2 = a1 ∧ st2.status = st1.status := by
  unfold invoke at h1 h2
  cases hb : buildInstanceMap env st.store with
  | error e => rw [hb] at h1; simp at h1
  | ok im =>
    rw [hb] at h1
    have hp1 := rec_ok env W im st _ h1
    have hst1 : st1 = (reconcileT env W im st).1 := by rw [hp1]
    have ha1 : a1 = (reconcileT env W im st).2 := by rw [hp1]
    have hb1 : buildInstanceMap env st1.store = .ok im := by
      rw [hst1, invoke_bim_pres]
      exact hb
    rw [hb1] at h2
    have hp2 := rec_ok env W im st1 _ h2
    have hst2 : st2 = (reconcileT env W im st1).1 := by rw [hp2]
    have ha2 : a2 = (reconcileT env W im st1).2 := by rw [hp2]
    constructor
    · calc a2 = (recOut env W im st1).2 := by
            rw [ha2, (rec_out_eq env W im st1).2]
        _ = (recOut env W im st).2 := by rw [hst1, rec_recOut_pres]
        _ = a1 := by rw [ha1, (rec_out_eq env W im st).2]
    · calc st2.status = (recOut env W im st1).1 := by
            rw [hst2, (rec_out_eq env W im st1).1]
        _ = (recOut env W im st).1 := by rw [hst1, rec_recOut_pres]
        _ = st1.status := by rw [hst1, (rec_out_eq env W im st).1]

/-- C7 witness: two consecutive invocations from a concrete state agree
on applied configuration and final status. -/
theorem C7_reconcile_idempotent_outputs_witness :
    (invoke c7Env unitW c7St = .ok (c7Run1, some ()) ∧
     invoke c7Env unitW c7Run1 = .ok (c7Run2, some ())) ∧
    (some () = some () ∧ c7Run2.status = c7Run1.status) :=
  ⟨⟨by decide, by decide⟩,
   C7_reconcile_idempotent_outputs c7Env unitW c7St c7Run1 c7Run2 (some ()) (some ())
     (by decide) (by decide)⟩

/-- C7 counterexample: the first run creates the signing-key secret from
the workload-generated file `"k\n"`; the second run pushes the stripped
secret `"k"` back over that file, so the second run does have an
additional observable effect on the workload — refuting the claim's "no
additional observable effect" clause (applied configuration and status
are nevertheless identical, per the amended theorem). -/
theorem C7_second_run_effect_counterexample :
    invoke c7Env unitW c7St = .ok (c7Run1, some ()) ∧
    invoke c7Env unitW c7Run1 = .ok (c7Run2, some ()) ∧
    c7Run1.container.files = [("/data/srv.signing.key", "k\n")] ∧
    c7Run2.container.files = [("/data/srv.signing.key", "k")] := by
  decide

/-- C10 (amended): signing-key publication is gated on leadership — a
`set_signing_key` call by a non-leader creates no secret and writes no
reference: whenever the call returns, the state is completely
unchanged.  The call does not, however, always return without raising:
it raises exactly when the stored reference is dangling (present in
the peer data but unresolvable in the model), because the nested
`get_signing_key` cleanup executes the `del` of `secret-signing-id`
from the application databag, a write that ops rejects with
`RelationDataError` for a non-leader.  A reconcile invocation by a
non-leader that completes leaves the secret list unchanged. -/
theorem C10_nonleader_no_publication {Config : Type} (env : Env) (W : Workload Config)
    (key : String) (st : SysState Config) (hld : env.leader = false) :
    (∀ st' : SysState Config, setSigningKey env key st = .ok st' → st' = st) ∧
    (setSigningKey env key st = .error () ↔
      ∃ sid, storeRef st = some sid ∧ lookupSecret st.secrets sid = none) ∧
    (∀ (st1 : SysState Config) (a : Option Config),
      invoke env W st = .ok (st1, a) → st1.secrets = st.secrets) := by
  refine ⟨fun st' h => ssk_nonleader_ok env key st st' hld h,
    ssk_error_iff env key st hld, ?_⟩
  intro st1 a h
  unfold invoke at h
  cases hb : buildInstanceMap env st.store with
  | error e => rw [hb] at h; simp at h
  | ok im =>
    rw [hb] at h
    have hp := rec_ok env W im st _ h
    have hst : st1 = (reconcileT env W im st).1 := by rw [hp]
    rw [hst]
    exact rec_secrets_nonleader env W im st hld

/-- C10 witness: the non-leader main unit `app/0`, whose store holds no
signing-key reference, calls `set_signing_key` with a new key: every
successful return leaves the state unchanged, the call raises for no
state without a dangling reference, and a completed reconcile leaves
the secret list unchanged. -/
theorem C10_nonleader_no_publication_witness :
    c10Env.leader = false ∧
    ((∀ st' : SysState Unit, setSigningKey c10Env "newkey" c10St = .ok st' →
        st' = c10St) ∧
     (setSigningKey c10Env "newkey" c10St = .error () ↔
       ∃ sid, storeRef c10St = some sid ∧ lookupSecret c10St.secrets sid = none) ∧
     (∀ (st1 : SysState Unit) (a : Option Unit),
       invoke c10Env unitW c10St = .ok (st1, a) → st1.secrets = c10St.secrets)) :=
  ⟨by decide, C10_nonleader_no_publication c10Env unitW "newkey" c10St (by decide)⟩

/-- C10 counterexample: a non-leader holding a dangling published
reference (`secret:9` absent from the model's secrets) calls
`set_signing_key` with the new key `"newkey"`: the call raises (the
cleanup `del` on the application databag is a non-leader write), and
the surrounding reconcile invocation aborts as well — refuting the
original claim that such a call returns without raising any error. -/
theorem C10_dangling_raise_counterexample :
    c10Env.leader = false ∧ resolveKey c10dSt ≠ some "newkey" ∧
    setSigningKey c10Env "newkey" c10dSt = .error () ∧
    invoke c10Env unitW c10dSt = .error () := by decide

end SynapseCharm
